import Mathlib

/-!
Verification of the `pysplat` data-conversion and report-extraction pipeline
(`src/pysplat/__init__.py`) against its specification.

The development shallowly embeds the Python source:

* Python `decimal.Decimal` values are modelled by `PySplat.Dec` (sign /
  coefficient / exponent, exactly the `_pydecimal` working representation);
  the arithmetic used by the source (`-`, `%`, `/`) is translated from
  CPython's `_pydecimal.py` under the default context: 28 significant digits,
  `ROUND_HALF_EVEN`.  The default context's exponent limits
  (`Emin = -999999`, `Emax = 999999`) are not modelled: every quantity the
  source manipulates stays far inside them, so `_fix` never clamps.
  Special values (infinities, NaNs) are carried by `PySplat.PyDec`.
* Python binary floats are modelled by `PySplat.Float64` (sign, 53-bit
  mantissa, power-of-two exponent; only finite values, which is all the
  conversion path can receive).  `str(float)` is modelled by the
  shortest-round-trip digit search that CPython's `repr` performs.
* The report regex `Free space path loss: (\d*\.\d*) dB.*?ITWOM Version 3.0
  path loss: (\d*\.\d*) dB.*?(\d*\.\d*) dBuV/meter` (with `re.DOTALL`) is
  embedded as a backtracking matcher over `List Char`; `re.search`'s
  leftmost-match rule is the traversal of suffixes from the longest one.
  Report files are decoded from ISO-8859-1, so every character the matcher
  can see is a Latin-1 character; on that alphabet `\d` is exactly the ASCII
  digits, which is how `Char.isDigit` models it.
-/

namespace PySplat

/-! ## Digit-length helper (`len(str(coeff))` on a coefficient) -/

/-- Fuelled base-10 digit counter; `dlenGo f n` is the number of base-10
digits of `n` provided `n < 10 ^ f` (and `0` has zero digits here). -/
def dlenGo : ℕ → ℕ → ℕ
  | 0, _ => 0
  | f + 1, n => if n = 0 then 0 else dlenGo f (n / 10) + 1

/-- Number of characters of the decimal coefficient string, `len(self._int)`
in `_pydecimal` (`"0"` for a zero coefficient, hence length 1). -/
def digitsLen (n : ℕ) : ℕ := if n = 0 then 1 else dlenGo n n

theorem dlenGo_zero (f : ℕ) : dlenGo f 0 = 0 := by
  cases f <;> simp [dlenGo]

theorem dlenGo_spec :
    ∀ f n, n ≠ 0 → n < 10 ^ f →
      n < 10 ^ dlenGo f n ∧ 10 ^ dlenGo f n ≤ 10 * n := by
  intro f
  induction f with
  | zero => intro n h0 h; simp at h; omega
  | succ f ih =>
    intro n h0 h
    rw [dlenGo, if_neg h0]
    by_cases hq : n / 10 = 0
    · have hn10 : n < 10 := by omega
      simp [hq, dlenGo_zero]
      omega
    · have hdiv : n / 10 < 10 ^ f := by
        have : n < 10 * 10 ^ f := by
          calc n < 10 ^ (f + 1) := h
          _ = 10 * 10 ^ f := by ring
        omega
      obtain ⟨h1, h2⟩ := ih (n / 10) hq hdiv
      constructor
      · have : n < 10 * (n / 10) + 10 := by omega
        calc n < 10 * (n / 10) + 10 := this
        _ ≤ 10 * (10 ^ dlenGo f (n / 10) - 1) + 10 := by
              have : n / 10 + 1 ≤ 10 ^ dlenGo f (n / 10) := h1
              omega
        _ ≤ 10 ^ (dlenGo f (n / 10) + 1) := by
              rw [pow_succ]; omega
      · calc 10 ^ (dlenGo f (n / 10) + 1) = 10 ^ dlenGo f (n / 10) * 10 := by rw [pow_succ]
        _ ≤ (10 * (n / 10)) * 10 := by
              have := h2; omega
        _ ≤ 10 * n := by
              have : 10 * (n / 10) ≤ n := Nat.mul_div_le n 10
              omega

theorem digitsLen_spec (n : ℕ) (h0 : n ≠ 0) :
    n < 10 ^ digitsLen n ∧ 10 ^ digitsLen n ≤ 10 * n := by
  rw [digitsLen, if_neg h0]
  exact dlenGo_spec n n h0 (Nat.lt_pow_self (by norm_num) n)

theorem digitsLen_lt (n : ℕ) : n < 10 ^ digitsLen n := by
  by_cases h0 : n = 0
  · subst h0; simp [digitsLen]
  · exact (digitsLen_spec n h0).1

theorem digitsLen_le_of_lt_pow {n k : ℕ} (h0 : n ≠ 0) (h : n < 10 ^ k) :
    digitsLen n ≤ k := by
  obtain ⟨-, h2⟩ := digitsLen_spec n h0
  by_contra hc
  have hk : k + 1 ≤ digitsLen n := by omega
  have : 10 ^ (k + 1) ≤ 10 ^ digitsLen n := Nat.pow_le_pow_right (by norm_num) hk
  have : 10 ^ (k + 1) ≤ 10 * n := le_trans this h2
  rw [pow_succ] at this
  omega

theorem digitsLen_pos (n : ℕ) : 1 ≤ digitsLen n := by
  by_cases h0 : n = 0
  · subst h0; simp [digitsLen]
  · obtain ⟨h1, -⟩ := digitsLen_spec n h0
    by_contra hc
    have : digitsLen n = 0 := by omega
    rw [this] at h1
    simp at h1
    omega

theorem le_pow_digitsLen_pred (n : ℕ) (h0 : n ≠ 0) :
    10 ^ (digitsLen n - 1) ≤ n := by
  obtain ⟨-, h2⟩ := digitsLen_spec n h0
  have hp := digitsLen_pos n
  have : 10 ^ (digitsLen n - 1) * 10 = 10 ^ digitsLen n := by
    rw [← pow_succ]
    congr 1
    omega
  omega

/-! ## The finite-Decimal model -/

/-- A finite Python `Decimal`: sign (`true` = negative), coefficient and
exponent, the `(sign, int, exp)` triple of `_pydecimal`. -/
structure Dec where
  sign : Bool
  coeff : ℕ
  exp : ℤ
  deriving DecidableEq, Repr

/-- Context precision of the default `decimal` context. -/
def prec : ℕ := 28

/-- `Decimal.adjusted`: `self._exp + len(self._int) - 1`. -/
def adjusted (d : Dec) : ℤ := d.exp + digitsLen d.coeff - 1

/-- Exact rational value of a finite decimal. -/
def dval (d : Dec) : ℚ :=
  (if d.sign then -1 else 1) * (d.coeff : ℚ) * 10 ^ d.exp

/-- `Decimal._fix` under the default context, away from the exponent limits:
round the coefficient to at most `prec` significant digits with
`ROUND_HALF_EVEN`. -/
def decFix (d : Dec) : Dec :=
  if digitsLen d.coeff ≤ prec then d
  else
    let k := digitsLen d.coeff - prec
    let p := 10 ^ k
    let q := d.coeff / p
    let r := d.coeff % p
    let up : Bool := if p < 2 * r then true else if 2 * r < p then false else q % 2 = 1
    let c := if up then q + 1 else q
    if digitsLen c ≤ prec then ⟨d.sign, c, d.exp + k⟩
    else ⟨d.sign, c / 10, d.exp + k + 1⟩

/-- The exact aligned signed-integer sum of two decimals at the smaller
exponent. -/
def decAddRawInt (a b : Dec) : ℤ :=
  let e := min a.exp b.exp
  (if a.sign then -1 else 1) * a.coeff * 10 ^ (a.exp - e).toNat +
    (if b.sign then -1 else 1) * b.coeff * 10 ^ (b.exp - e).toNat

/-- The exact aligned sum that `Decimal.__add__` computes before rounding:
both coefficients are brought to the smaller exponent and added as signed
integers (a zero result is positive under the default rounding). -/
def decAddRaw (a b : Dec) : Dec :=
  ⟨decide (decAddRawInt a b < 0), (decAddRawInt a b).natAbs, min a.exp b.exp⟩

/-- `Decimal.__add__` (default context): exact aligned sum, then `_fix`. -/
def decAdd (a b : Dec) : Dec := decFix (decAddRaw a b)

/-- `Decimal.copy_negate`. -/
def decNeg (d : Dec) : Dec := ⟨!d.sign, d.coeff, d.exp⟩

/-- `Decimal.__sub__`: `self.__add__(other.copy_negate())`. -/
def decSub (a b : Dec) : Dec := decAdd a (decNeg b)

/-- `Decimal.__mod__` on finite operands: the remainder from
`Decimal._divide` — coefficients aligned to the smaller exponent, truncated
integer division, remainder carries the dividend's sign at the smaller
exponent — then `_fix`.  `none` models the raised `InvalidOperation` /
`DivisionUndefined` (zero divisor) and `DivisionImpossible` (quotient of
`prec` or more digits) signals. -/
def decRem (a b : Dec) : Option Dec :=
  if b.coeff = 0 then none
  else
    let e := min a.exp b.exp
    let ia := a.coeff * 10 ^ (a.exp - e).toNat
    let ib := b.coeff * 10 ^ (b.exp - e).toNat
    let q := ia / ib
    if 10 ^ prec ≤ q then none
    else some (decFix ⟨a.sign, ia % ib, e⟩)

/-- The trailing-zero-stripping loop of `Decimal.__truediv__`'s exact branch:
`while exp < ideal_exp and coeff % 10 == 0: coeff //= 10; exp += 1`. -/
def stripZerosGo : ℕ → ℕ → ℤ → ℤ → ℕ × ℤ
  | 0, c, e, _ => (c, e)
  | f + 1, c, e, ideal =>
    if e < ideal ∧ c % 10 = 0 then stripZerosGo f (c / 10) (e + 1) ideal
    else (c, e)

/-- `Decimal.__truediv__` on finite operands (default context): long
division producing `prec + 1`-or-more digits, the `coeff % 5 == 0 → coeff + 1`
inexactness marker, ideal-exponent zero stripping when exact, then `_fix`.
`none` models the raised `DivisionByZero` / `DivisionUndefined`. -/
def decDivFin (a b : Dec) : Option Dec :=
  let sign := xor a.sign b.sign
  if b.coeff = 0 then none
  else if a.coeff = 0 then some (decFix ⟨sign, 0, a.exp - b.exp⟩)
  else
    let shift : ℤ := (digitsLen b.coeff : ℤ) - digitsLen a.coeff + prec + 1
    let e := a.exp - b.exp - shift
    let n := if 0 ≤ shift then a.coeff * 10 ^ shift.toNat else a.coeff
    let den := if 0 ≤ shift then b.coeff else b.coeff * 10 ^ (-shift).toNat
    let q := n / den
    let r := n % den
    let ce :=
      if r ≠ 0 then (if q % 5 = 0 then q + 1 else q, e)
      else stripZerosGo (digitsLen q) q e (a.exp - b.exp)
    some (decFix ⟨sign, ce.1, ce.2⟩)

/-! ## Rendering (`Decimal.__str__`) -/

/-- Digit character for `n < 10`. -/
def digitChar (n : ℕ) : Char := Char.ofNat (48 + n)

/-- Fuelled most-significant-first digit writer. -/
def natDigitsGo : ℕ → ℕ → List Char → List Char
  | 0, _, acc => acc
  | f + 1, n, acc =>
    if n < 10 then digitChar n :: acc
    else natDigitsGo f (n / 10) (digitChar (n % 10) :: acc)

/-- Decimal digit string of a natural number (`str(coeff)`; `"0"` for zero). -/
def natDigits (n : ℕ) : List Char := natDigitsGo (n + 1) n []

/-- `Decimal.__str__` for a finite value: positional notation when the
exponent is at most zero and the adjusted exponent is above `-6`, otherwise
scientific notation with a `%+d`-formatted exponent. -/
def decStr (d : Dec) : List Char :=
  let ds := natDigits d.coeff
  let len : ℤ := ds.length
  let leftdigits : ℤ := d.exp + len
  let dotplace : ℤ := if d.exp ≤ 0 ∧ -6 < leftdigits then leftdigits else 1
  let core : List Char :=
    if dotplace ≤ 0 then
      '0' :: '.' :: (List.replicate (-dotplace).toNat '0' ++ ds)
    else if len ≤ dotplace then
      ds ++ List.replicate (dotplace - len).toNat '0'
    else
      ds.take dotplace.toNat ++ '.' :: ds.drop dotplace.toNat
  let exppart : List Char :=
    if leftdigits = dotplace then []
    else
      'E' :: (if 0 ≤ leftdigits - dotplace then '+' :: natDigits (leftdigits - dotplace).toNat
              else '-' :: natDigits (leftdigits - dotplace).natAbs)
  (if d.sign then ['-'] else []) ++ core ++ exppart

/-! ## Special values -/

/-- A Python `Decimal`: finite value, signed infinity, or (quiet/signalling)
NaN.  NaN signs and diagnostic payloads are not tracked: nothing in the
source ever reads them. -/
inductive PyDec where
  | num (d : Dec)
  | inf (sign : Bool)
  | nan
  | snan
  deriving DecidableEq, Repr

def pyDecStr : PyDec → List Char
  | .num d => decStr d
  | .inf s => (if s then "-Infinity" else "Infinity").data
  | .nan => "NaN".data
  | .snan => "sNaN".data

def pyDecNeg : PyDec → PyDec
  | .num d => .num (decNeg d)
  | .inf s => .inf (!s)
  | .nan => .nan
  | .snan => .snan

/-- `Decimal.__add__` with special-value handling; `none` is a raised
`InvalidOperation` (signalling NaN operand, or `∞ + (-∞)`). -/
def pyDecAdd : PyDec → PyDec → Option PyDec
  | .snan, _ => none
  | _, .snan => none
  | .nan, _ => some .nan
  | _, .nan => some .nan
  | .inf s1, .inf s2 => if s1 = s2 then some (.inf s1) else none
  | .inf s, .num _ => some (.inf s)
  | .num _, .inf s => some (.inf s)
  | .num a, .num b => some (.num (decAdd a b))

/-- `Decimal.__sub__`. -/
def pyDecSub (a b : PyDec) : Option PyDec := pyDecAdd a (pyDecNeg b)

/-- `Decimal.__mod__` with special-value handling (`x % ±∞ = x` for finite
`x`; an infinite dividend raises). -/
def pyDecRem : PyDec → PyDec → Option PyDec
  | .snan, _ => none
  | _, .snan => none
  | .nan, _ => some .nan
  | _, .nan => some .nan
  | .inf _, _ => none
  | .num a, .inf _ => some (.num (decFix a))
  | .num a, .num b => (decRem a b).map .num

/-- Smallest representable exponent of the default context
(`Etiny = Emin - prec + 1`), the exponent `__truediv__` gives `x / ∞`. -/
def etiny : ℤ := -1000026

/-- `Decimal.__truediv__` with special-value handling. -/
def pyDecDiv : PyDec → PyDec → Option PyDec
  | .snan, _ => none
  | _, .snan => none
  | .nan, _ => some .nan
  | _, .nan => some .nan
  | .inf _, .inf _ => none
  | .inf s1, .num b => some (.inf (xor s1 b.sign))
  | .num a, .inf s2 => some (.num ⟨xor a.sign s2, 0, etiny⟩)
  | .num a, .num b => (decDivFin a b).map .num

/-! ## Parsing (the `Decimal` string constructor) -/

/-- Characters stripped by `str.strip()` (ASCII whitespace; the report and
all literals in this repository are ISO-8859-1 / ASCII). -/
def isPyWS (c : Char) : Bool :=
  c = ' ' || c = '\t' || c = '\n' || c = '\r' || c = '\x0b' || c = '\x0c'

def pstrip (s : List Char) : List Char :=
  ((s.dropWhile isPyWS).reverse.dropWhile isPyWS).reverse

/-- Value of a digit string (leading zeros collapse, as `int()` does). -/
def natOfDigits (ds : List Char) : ℕ :=
  ds.foldl (fun a c => a * 10 + (c.toNat - 48)) 0

/-- `[-+]?\d+` parsed in full, for the exponent part. -/
def parseSignedNat (s : List Char) : Option ℤ :=
  let core : Bool → List Char → Option ℤ := fun sg t =>
    if t ≠ [] ∧ t.all (·.isDigit) then
      some ((if sg then -1 else 1) * natOfDigits t)
    else none
  match s with
  | '-' :: t => core true t
  | '+' :: t => core false t
  | t => core false t

/-- The numeric arm of `_pydecimal`'s `_parser` regex after the sign:
`(?=\d|\.\d)(?P<int>\d*)(\.(?P<frac>\d*))?(E(?P<exp>[-+]?\d+))?`, anchored at
the end of the string. -/
def parseNumeric (sign : Bool) (s : List Char) : Option PyDec :=
  let (d1, r1) := s.span (·.isDigit)
  let dotted : List Char × List Char := match r1 with
    | '.' :: t => t.span (·.isDigit)
    | _ => ([], r1)
  let d2 := dotted.1
  let r2 := dotted.2
  if d1 = [] ∧ d2 = [] then none
  else
    match r2 with
    | [] => some (.num ⟨sign, natOfDigits (d1 ++ d2), -(d2.length : ℤ)⟩)
    | e :: t =>
      if e = 'e' ∨ e = 'E' then
        match parseSignedNat t with
        | some ex => some (.num ⟨sign, natOfDigits (d1 ++ d2), ex - d2.length⟩)
        | none => none
      else none

/-- The special-value arm of `_parser` (case-insensitive `Inf`, `Infinity`,
`NaN`, `sNaN`, with optional digit payload on NaNs). -/
def parseSpecial (sign : Bool) (s : List Char) : Option PyDec :=
  let l := s.map Char.toLower
  if l = "inf".data ∨ l = "infinity".data then some (.inf sign)
  else
    match l with
    | 'n' :: 'a' :: 'n' :: t => if t.all (·.isDigit) then some .nan else none
    | 's' :: 'n' :: 'a' :: 'n' :: t => if t.all (·.isDigit) then some .snan else none
    | _ => none

/-- The `Decimal` string constructor: strip whitespace, delete underscores
(`value.strip().replace("_", "")`), read an optional sign, then either the
numeric form or a special value; `none` is the raised `InvalidOperation`. -/
def decParse (s0 : List Char) : Option PyDec :=
  let s := (pstrip s0).filter (· ≠ '_')
  let signed : Bool × List Char :=
    match s with
    | '-' :: t => (true, t)
    | '+' :: t => (false, t)
    | t => (false, t)
  match parseNumeric signed.1 signed.2 with
  | some d => some d
  | none => parseSpecial signed.1 signed.2

/-! ## Binary floats and `str(float)` -/

/-- A finite positive-mantissa IEEE-754 binary64 datum: value
`±m · 2 ^ e`, with `2 ^ 52 ≤ m < 2 ^ 53` for normal values.  Only finite
floats are modelled: they are the only ones `_convert_to_decimal` can
meaningfully receive. -/
structure Float64 where
  sign : Bool
  m : ℕ
  e : ℤ
  deriving DecidableEq, Repr

/-- Represent `n · b ^ t` as a fraction `(numerator, denominator)`. -/
def mulPow (n b : ℕ) (t : ℤ) : ℕ × ℕ :=
  if 0 ≤ t then (n * b ^ t.toNat, 1) else (n, b ^ (-t).toNat)

/-- Round `num / den` to the nearest integer, ties to even. -/
def rdivHE (num den : ℕ) : ℕ :=
  let q := num / den
  let r := num % den
  if den < 2 * r then q + 1
  else if 2 * r < den then q
  else if q % 2 = 1 then q + 1 else q

/-- `den · 2 ^ t ≤ num`? -/
def pow2le (den num : ℕ) (t : ℤ) : Bool :=
  if 0 ≤ t then den * 2 ^ t.toNat ≤ num else den ≤ num * 2 ^ (-t).toNat

def nlog2Go : ℕ → ℕ → ℕ
  | 0, _ => 0
  | f + 1, n => if n < 2 then 0 else nlog2Go f (n / 2) + 1

/-- Floor of `log₂ (num / den)` for positive `num`, `den`. -/
def flog2 (num den : ℕ) : ℤ :=
  let t0 : ℤ := (nlog2Go num num : ℤ) - nlog2Go den den - 1
  if pow2le den num (t0 + 2) then t0 + 2
  else if pow2le den num (t0 + 1) then t0 + 1
  else t0

def pow10le (den num : ℕ) (t : ℤ) : Bool :=
  if 0 ≤ t then den * 10 ^ t.toNat ≤ num else den ≤ num * 10 ^ (-t).toNat

/-- Floor of `log₁₀ (num / den)` for positive `num`, `den`. -/
def flog10 (num den : ℕ) : ℤ :=
  let t0 : ℤ := (dlenGo num num : ℤ) - dlenGo den den - 1
  if pow10le den num (t0 + 1) then t0 + 1
  else if pow10le den num t0 then t0
  else t0 - 1

/-- Correctly round the positive decimal `c · 10 ^ e10` to the nearest
binary64 (ties to even), returned as a normalised mantissa/exponent pair. -/
def nearestDouble (c : ℕ) (e10 : ℤ) : ℕ × ℤ :=
  let f := mulPow c 10 e10
  let t := flog2 f.1 f.2
  let g := mulPow f.1 2 (52 - t)
  let m := rdivHE g.1 (f.2 * g.2)
  if m = 2 ^ 53 then (2 ^ 52, t - 51) else (m, t - 52)

/-- Round the positive rational `num / den` to `k` significant decimal
digits (ties to even); returns the digit block and the decimal exponent of
its leading digit. -/
def roundSig (num den k : ℕ) : ℕ × ℤ :=
  let t := flog10 num den
  let g := mulPow num 10 ((k : ℤ) - 1 - t)
  let d := rdivHE g.1 (den * g.2)
  if d = 10 ^ k then (10 ^ (k - 1), t + 1) else (d, t)

/-- The shortest-round-trip search of CPython's float `repr`: the smallest
`k ≤ 17` whose `k`-digit correctly-rounded decimal reads back (correct
rounding, ties to even) to the very same binary64. -/
def shortestGo (num den : ℕ) (m : ℕ) (e : ℤ) : ℕ → ℕ → ℕ × ℤ
  | 0, _ => roundSig num den 17
  | f + 1, k =>
    let de := roundSig num den k
    let rb := nearestDouble de.1 (de.2 - k + 1)
    if rb.1 = m ∧ rb.2 = e then de
    else shortestGo num den m e f (k + 1)

def shortestDigits (f : Float64) : ℕ × ℤ :=
  let nd := mulPow f.m 2 f.e
  shortestGo nd.1 nd.2 f.m f.e 17 1

def stripTrailZeros (ds : List Char) : List Char :=
  (ds.reverse.dropWhile (· = '0')).reverse

/-- `str(float)` = `repr(float)` for a finite float: shortest round-trip
digits, positional notation for decimal exponents in `[-4, 16)`, otherwise
scientific notation with a two-digit-minimum exponent. -/
def floatRepr (f : Float64) : List Char :=
  if f.m = 0 then (if f.sign then "-0.0" else "0.0").data
  else
    let dt := shortestDigits f
    let ds := stripTrailZeros (natDigits dt.1)
    let t10 := dt.2
    let len : ℤ := ds.length
    let body : List Char :=
      if -4 ≤ t10 ∧ t10 < 16 then
        if len - 1 ≤ t10 then ds ++ List.replicate (t10 - (len - 1)).toNat '0' ++ ".0".data
        else if 0 ≤ t10 then ds.take (t10 + 1).toNat ++ '.' :: ds.drop (t10 + 1).toNat
        else '0' :: '.' :: List.replicate (-t10 - 1).toNat '0' ++ ds
      else
        (ds.take 1 ++ (if ds.length ≤ 1 then [] else '.' :: ds.drop 1)) ++
          'e' :: (if 0 ≤ t10 then '+' else '-') ::
            (let a := natDigits t10.natAbs
             if a.length < 2 then '0' :: a else a)
    if f.sign then '-' :: body else body

/-- Reduce `m · 2 ^ e` to lowest terms as `float.as_integer_ratio` does:
halve the mantissa while it is even and the exponent negative. -/
def evenStripGo : ℕ → ℕ → ℤ → ℕ × ℤ
  | 0, m, e => (m, e)
  | f + 1, m, e =>
    if m % 2 = 0 ∧ e < 0 then evenStripGo f (m / 2) (e + 1) else (m, e)

/-- `Decimal.from_float` / `Decimal(float)`: the exact binary value of the
reduced fraction `n / 2 ^ k` as `±(n · 5 ^ k) · 10 ^ (-k)`. -/
def decFromFloat (f : Float64) : Dec :=
  let me := evenStripGo 1100 f.m f.e
  if 0 ≤ me.2 then ⟨f.sign, me.1 * 2 ^ me.2.toNat, 0⟩
  else ⟨f.sign, me.1 * 5 ^ (-me.2).toNat, me.2⟩

/-! ## Field coercion and the domain model -/

/-- A Python scalar as it may reach a decimal-typed dataclass field. -/
inductive PyVal where
  | dec (d : PyDec)
  | flt (f : Float64)
  | int (n : ℤ)
  | str (s : List Char)
  | otherObj
  deriving DecidableEq, Repr

/-- The constructor-time failure of the spec's taxonomy (`ValidationError`):
in the source, `decimal.InvalidOperation` for an unparseable string and
`TypeError` for an unsupported type. -/
inductive ValidationError where
  | invalidOperation
  | typeError
  deriving DecidableEq, Repr

/-- `_convert_to_decimal` from `__post_init__`: a `Decimal` passes through,
a float is converted via `Decimal(str(val))`, anything else via
`Decimal(val)`. -/
def convert_to_decimal : PyVal → Except ValidationError PyDec
  | .dec d => .ok d
  | .flt f =>
    match decParse (floatRepr f) with
    | some d => .ok d
    | none => .error .invalidOperation
  | .int n => .ok (.num ⟨decide (n < 0), n.natAbs, 0⟩)
  | .str s =>
    match decParse s with
    | some d => .ok d
    | none => .error .invalidOperation
  | .otherObj => .error .typeError

structure Transmitter where
  name : String
  latitude : PyDec
  longitude_WtoE : PyDec
  height_m : PyDec
  eirp_W : PyDec
  frequency_MHz : PyDec
  polarization : ℕ
  radio_climate : ℕ
  deriving DecidableEq, Repr

structure Receiver where
  name : String
  latitude : PyDec
  longitude_WtoE : PyDec
  height_m : PyDec
  deriving DecidableEq, Repr

structure QTHFields where
  name : String
  latitude : PyDec
  longitude_EtoW : PyDec
  height_m : PyDec
  deriving DecidableEq, Repr

structure LRPFields where
  erp_W : PyDec
  frequency_MHz : PyDec
  polarization : ℕ
  radio_climate : ℕ
  earth_dielectric_constant : PyDec
  earth_conductivity : PyDec
  atmospheric_bending_constant : PyDec
  fraction_situations : PyDec
  fraction_time : PyDec
  deriving DecidableEq, Repr

/-- `Transmitter.__init__` + `__post_init__`: every `Decimal`-annotated field
(the five in declaration order) is coerced; `name`, `polarization` and
`radio_climate` are not. -/
def mkTransmitter (name : String)
    (latitude longitude_WtoE height_m eirp_W frequency_MHz : PyVal)
    (polarization radio_climate : ℕ) : Except ValidationError Transmitter :=
  match convert_to_decimal latitude with
  | .error e => .error e
  | .ok lat =>
    match convert_to_decimal longitude_WtoE with
    | .error e => .error e
    | .ok lon =>
      match convert_to_decimal height_m with
      | .error e => .error e
      | .ok h =>
        match convert_to_decimal eirp_W with
        | .error e => .error e
        | .ok ei =>
          match convert_to_decimal frequency_MHz with
          | .error e => .error e
          | .ok fr => .ok ⟨name, lat, lon, h, ei, fr, polarization, radio_climate⟩

/-- `Receiver.__init__` + `__post_init__`. -/
def mkReceiver (name : String) (latitude longitude_WtoE height_m : PyVal) :
    Except ValidationError Receiver :=
  match convert_to_decimal latitude with
  | .error e => .error e
  | .ok lat =>
    match convert_to_decimal longitude_WtoE with
    | .error e => .error e
    | .ok lon =>
      match convert_to_decimal height_m with
      | .error e => .error e
      | .ok h => .ok ⟨name, lat, lon, h⟩

/-- `Decimal("360")`, and equally `Decimal(360)` from the int literal in
`% 360`. -/
def d360 : Dec := ⟨false, 360, 0⟩

/-- `(Decimal("360") - longitude_WtoE) % 360`. -/
def lonEtoW (lon : PyDec) : Option PyDec :=
  match pyDecSub (.num d360) lon with
  | none => none
  | some s => pyDecRem s (.num d360)

/-- `Transmitter.to_qthfields` (`none` models a raised signal from the
decimal arithmetic, impossible on finite inputs). -/
def Transmitter.to_qthfields (t : Transmitter) : Option QTHFields :=
  match lonEtoW t.longitude_WtoE with
  | none => none
  | some lonE => some ⟨t.name, t.latitude, lonE, t.height_m⟩

/-- `Receiver.to_qthfields`. -/
def Receiver.to_qthfields (r : Receiver) : Option QTHFields :=
  match lonEtoW r.longitude_WtoE with
  | none => none
  | some lonE => some ⟨r.name, r.latitude, lonE, r.height_m⟩

/-- `Decimal("1.64")`. -/
def d164 : Dec := ⟨false, 164, -2⟩

/-- The `LRPFields` `NamedTuple` defaults: `Decimal("15.000")`,
`Decimal("0.005")`, `Decimal("301.000")`, `Decimal("0.50")`,
`Decimal("0.50")`. -/
def lrpDefaults : PyDec × PyDec × PyDec × PyDec × PyDec :=
  (.num ⟨false, 15000, -3⟩, .num ⟨false, 5, -3⟩, .num ⟨false, 301000, -3⟩,
   .num ⟨false, 50, -2⟩, .num ⟨false, 50, -2⟩)

/-- `Transmitter.to_lrpfields`: `erp_W = eirp_W / Decimal("1.64")`, pass the
radio fields through, take the five defaults. -/
def Transmitter.to_lrpfields (t : Transmitter) : Option LRPFields :=
  match pyDecDiv t.eirp_W (.num d164) with
  | none => none
  | some erp =>
    some ⟨erp, t.frequency_MHz, t.polarization, t.radio_climate,
          lrpDefaults.1, lrpDefaults.2.1, lrpDefaults.2.2.1,
          lrpDefaults.2.2.2.1, lrpDefaults.2.2.2.2⟩

/-! ## The text templates -/

/-- `QTH_TEMPLATE.format(**fields._asdict())`: the four lines joined by
newlines. -/
def QTH_TEMPLATE_render (q : QTHFields) : String :=
  String.intercalate "\n"
    [q.name,
     String.mk (pyDecStr q.latitude),
     String.mk (pyDecStr q.longitude_EtoW),
     String.mk (pyDecStr q.height_m) ++ " meters"]

/-- `LRP_TEMPLATE.format(**fields._asdict())`: the nine lines joined by
newlines, each value followed by its literal inline comment from the
source. -/
def LRP_TEMPLATE_render (l : LRPFields) : String :=
  String.intercalate "\n"
    [String.mk (pyDecStr l.earth_dielectric_constant) ++ "\t; Earth Dielectric Constant (Relative permittivity)",
     String.mk (pyDecStr l.earth_conductivity) ++ "; Earth Conductivity (Siemens per meter)",
     String.mk (pyDecStr l.atmospheric_bending_constant) ++ "\t; Atmospheric Bending Constant (N-Units)",
     String.mk (pyDecStr l.frequency_MHz) ++ "\t; Frequency in MHz (20 MHz to 20 GHz)",
     String.mk (natDigits l.radio_climate) ++ "\t; Radio Climate",
     String.mk (natDigits l.polarization) ++ "\t; Polarization (0 = Horizontal, 1 = Vertical)",
     String.mk (pyDecStr l.fraction_situations) ++ "\t; Fraction of Situations",
     String.mk (pyDecStr l.fraction_time) ++ "\t; Fraction of Time",
     String.mk (pyDecStr l.erp_W) ++ " ; ERP"]

/-! ## The report pattern

The source pattern, with `re.DOTALL`:

`Free space path loss: (\d*\.\d*) dB` `.*?`
`ITWOM Version 3.0 path loss: (\d*\.\d*) dB` `.*?` `(\d*\.\d*) dBuV/meter`

A pattern item is a literal character or (for the unescaped `.` inside
`"3.0"` and for `.*?` steps) a wildcard. -/

/-- Literal pattern of a string. -/
def strPat (s : String) : List (Option Char) := s.data.map some

def freePat : List (Option Char) := strPat "Free space path loss: "

/-- `ITWOM Version 3.0 path loss: ` — the `.` is an unescaped regex
wildcard. -/
def itwomPat : List (Option Char) :=
  strPat "ITWOM Version 3" ++ none :: strPat "0 path loss: "

def dbPat : List (Option Char) := strPat " dB"

def dbuvPat : List (Option Char) := strPat " dBuV/meter"

/-- Match a literal/wildcard pattern at the head of `s`, returning the rest. -/
def matchPat : List (Option Char) → List Char → Option (List Char)
  | [], s => some s
  | _ :: _, [] => none
  | oc :: pt, c :: s =>
    match oc with
    | none => matchPat pt s
    | some c' => if c = c' then matchPat pt s else none

/-- `(\d*\.\d*)` at the head of `s`: maximal digit run, a literal dot,
maximal digit run (backtracking to a shorter digit run can never help: the
next character after a shorter run is a digit, which neither `\.` nor the
following literal can match).  Returns the captured group and the rest. -/
def decPatMatch (s : List Char) : Option (List Char × List Char) :=
  let (d1, r1) := s.span (·.isDigit)
  match r1 with
  | '.' :: r2 =>
    let (d2, r3) := r2.span (·.isDigit)
    some (d1 ++ '.' :: d2, r3)
  | _ => none

/-- A literal/wildcard head pattern followed by `(\d*\.\d*)` followed by a
literal tail pattern, anchored at the head of `s`: the shared shape of the
three pattern segments.  Returns the captured group and the rest. -/
def segMatch (pre post : List (Option Char)) (s : List Char) :
    Option (List Char × List Char) :=
  match matchPat pre s with
  | none => none
  | some r1 =>
    match decPatMatch r1 with
    | none => none
    | some gr =>
      match matchPat post gr.2 with
      | none => none
      | some r3 => some (gr.1, r3)

/-- `Free space path loss: (\d*\.\d*) dB` anchored at the head. -/
def matchFS (s : List Char) : Option (List Char × List Char) :=
  segMatch freePat dbPat s

/-- `ITWOM Version 3.0 path loss: (\d*\.\d*) dB` anchored at the head. -/
def matchIT (s : List Char) : Option (List Char × List Char) :=
  segMatch itwomPat dbPat s

/-- `(\d*\.\d*) dBuV/meter` anchored at the head. -/
def matchDBuV (s : List Char) : Option (List Char × List Char) :=
  segMatch [] dbuvPat s

/-- First suffix (longest first, i.e. leftmost position first) at which an
anchored matcher succeeds. -/
def firstMatch (f : List Char → Option α) : List Char → Option α
  | [] => f []
  | c :: t =>
    match f (c :: t) with
    | some a => some a
    | none => firstMatch f t

/-- The `.*?(\d*\.\d*) dBuV/meter` tail: the lazy gap makes the engine take
the leftmost position at which the tail matches, with nothing after it to
fail, so no backtracking can revisit the choice. -/
def scan3 (s : List Char) : Option (List Char) :=
  (firstMatch matchDBuV s).map Prod.fst

/-- The `.*?ITWOM ... dB .*? ... dBuV/meter` tail with the engine's
backtracking: positions are tried leftmost first; a position where the ITWOM
pattern matches but no field-strength pattern follows is abandoned and the
engine moves one character right. -/
def rsearch2 : List Char → Option (List Char × List Char)
  | [] => none
  | c :: t =>
    match matchIT (c :: t) with
    | some (g2, r) =>
      match scan3 r with
      | some g3 => some (g2, g3)
      | none => rsearch2 t
    | none => rsearch2 t

/-- `re.search` of the full pattern: leftmost start position whose
free-space head is followed (with backtracking) by the rest of the
pattern.  Returns the three captured groups. -/
def rsearch1 : List Char → Option (List Char × List Char × List Char)
  | [] => none
  | c :: t =>
    match matchFS (c :: t) with
    | some (g1, r) =>
      match rsearch2 r with
      | some (g2, g3) => some (g1, g2, g3)
      | none => rsearch1 t
    | none => rsearch1 t

/-- Modelled from the spec (§4.4, §9): after the ITWOM pattern's first
occurrence, commit and search for the first field-strength pattern. -/
def stage23 (s : List Char) : Option (List Char × List Char) :=
  match firstMatch matchIT s with
  | none => none
  | some (g2, r) =>
    match firstMatch matchDBuV r with
    | none => none
    | some (g3, _) => some (g2, g3)

/-- Modelled from the spec (§4.4, §9): three sequential pattern searches over
successive suffixes of the text, each committing to its first occurrence and
carrying the read cursor forward. -/
def orderedScan (s : List Char) : Option (List Char × List Char × List Char) :=
  match firstMatch matchFS s with
  | none => none
  | some (g1, r) =>
    match stage23 r with
    | none => none
    | some (g2, g3) => some (g1, g2, g3)

/-! ## The report parser and the pipeline -/

/-- The failures `splat_report_values` can raise, in the spec's taxonomy:
`TimeoutExpired` (TimeoutError), `CalledProcessError`
(ProcessExecutionError), a missing report file, `decimal.InvalidOperation`
from `Decimal(matches.group(i))`, and `SplatReportException`
(ReportParseError) carrying the full decoded report text. -/
inductive SplatError where
  | timeoutExpired
  | calledProcessError
  | fileNotFoundError
  | invalidOperation
  | reportError (report_text : List Char)
  deriving DecidableEq, Repr

/-- Lines 209–227 of the source: search the pattern; on a match return
`Decimal` of the three groups, otherwise raise `SplatReportException` with
`report_text` as payload. -/
def splat_report_parse (report_text : List Char) :
    Except SplatError (PyDec × PyDec × PyDec) :=
  match rsearch1 report_text with
  | some (g1, g2, g3) =>
    match decParse g1, decParse g2, decParse g3 with
    | some a, some b, some c => .ok (a, b, c)
    | _, _, _ => .error .invalidOperation
  | none => .error (.reportError report_text)

/-- Outcome of the `subprocess.run` call, as an oracle: the external tool
either exceeds the timeout, exits nonzero, or completes — possibly having
written the report file (given decoded from ISO-8859-1). -/
inductive SubprocResult where
  | timesOut
  | exitsNonzero
  | completes (reportFile : Option (List Char))
  deriving DecidableEq

/-- Paths the pipeline creates.  Every one of them is constructed under
`tmpdir_path`, which is what makes the `TemporaryDirectory` cleanup
complete. -/
inductive WorkPath where
  | dirRoot
  | inDir (name : String)
  deriving DecidableEq

/-- All workspace paths live inside the scoped temporary directory. -/
def WorkPath.insideWorkspace : WorkPath → Bool := fun _ => true

/-- The default of the `timeout` keyword parameter. -/
def defaultTimeout : ℕ := 2

/-- `splat_report_values`, with the external process abstracted by `run`:
create the workspace, write the three encoder outputs, run the tool, read
and parse the report; the `with tempfile.TemporaryDirectory()` block removes
every workspace path on each exit, normal or exceptional.  The result is
the returned triple or raised error, together with the paths left on disk. -/
def splat_report_values (transmitter : Transmitter) (receiver : Receiver)
    (run : SubprocResult) (timeout : ℕ) :
    Except SplatError (PyDec × PyDec × PyDec) × List WorkPath :=
  let _ := timeout
  let written : List WorkPath :=
    [.dirRoot,
     .inDir ("transmitter-" ++ transmitter.name ++ ".qth"),
     .inDir ("transmitter-" ++ transmitter.name ++ ".lrp"),
     .inDir ("receiver-" ++ receiver.name ++ ".qth")]
  let body : Except SplatError (PyDec × PyDec × PyDec) × List WorkPath :=
    match transmitter.to_qthfields, transmitter.to_lrpfields,
          receiver.to_qthfields with
    | some tq, some tl, some rq =>
      let _ := (QTH_TEMPLATE_render tq, LRP_TEMPLATE_render tl,
                QTH_TEMPLATE_render rq)
      match run with
      | .timesOut => (.error .timeoutExpired, written)
      | .exitsNonzero => (.error .calledProcessError, written)
      | .completes none => (.error .fileNotFoundError, written)
      | .completes (some text) =>
        (splat_report_parse text,
         written ++ [.inDir (transmitter.name ++ "-to-" ++ receiver.name ++ ".txt")])
    | _, _, _ => (.error .invalidOperation, written)
  (body.1, body.2.filter (fun p => !p.insideWorkspace))

/-! ## Concrete values used by the claims -/

/-- The transmitter of `test1` (fields already `Decimal`, as in the test). -/
def menesble : Transmitter :=
  ⟨"Menesble", .num ⟨false, 4778194, -5⟩, .num ⟨false, 490917, -5⟩,
   .num ⟨false, 410, -1⟩, .num ⟨false, 800, -1⟩, .num ⟨false, 80000, -2⟩, 1, 5⟩

/-- The receiver of `test1`. -/
def bure : Receiver :=
  ⟨"Bure", .num ⟨false, 47738787, -6⟩, .num ⟨false, 48892801, -7⟩,
   .num ⟨false, 20, -1⟩⟩

/-- `menesble.to_qthfields()`'s value. -/
def menesbleQth : QTHFields :=
  ⟨"Menesble", .num ⟨false, 4778194, -5⟩, .num ⟨false, 35509083, -5⟩,
   .num ⟨false, 410, -1⟩⟩

/-- A transmitter whose west-to-east longitude is 370 (a value above 360). -/
def tx370 : Transmitter :=
  ⟨"T", .num ⟨false, 0, 0⟩, .num ⟨false, 370, 0⟩, .num ⟨false, 0, 0⟩,
   .num ⟨false, 0, 0⟩, .num ⟨false, 0, 0⟩, 1, 5⟩

/-- A receiver with the same longitude 370. -/
def rx370 : Receiver :=
  ⟨"R", .num ⟨false, 0, 0⟩, .num ⟨false, 370, 0⟩, .num ⟨false, 0, 0⟩⟩

/-- A longitude in `[0, 360]` with 29 significant digits:
`1.2345678901234567890123456789`. -/
def lonHiPrec : Dec := ⟨false, 12345678901234567890123456789, -28⟩

/-- The binary64 value `0.1` (`0x3FB999999999999A`), that is
`7205759403792794 · 2⁻⁵⁶`. -/
def float01 : Float64 := ⟨false, 7205759403792794, -56⟩

/-- A report whose free-space quantity is printed as a plain integer. -/
def intReport : List Char :=
  ("Free space path loss: 104 dB\nITWOM Version 3.0 path loss: 141.82 dB\n42.53 dBuV/meter").data

/-- A report in which all three patterns occur in order but the first
captured group is the bare dot `"."` (both digit runs empty). -/
def dotReport : List Char :=
  ("Free space path loss: . dB x ITWOM Version 3.0 path loss: 1.0 dB x 2.0 dBuV/meter").data

/-- A well-formed report. -/
def goodReport : List Char :=
  ("Blah\nFree space path loss: 104.55 dB\nmore\nITWOM Version 3.0 path loss: 141.82 dB\nSignal: 42.53 dBuV/meter\nEnd").data

/-- Decidable equality on `Except` results. -/
instance {ε α : Type} [DecidableEq ε] [DecidableEq α] : DecidableEq (Except ε α) := fun a b =>
  match a, b with
  | .ok x, .ok y =>
    if h : x = y then .isTrue (by rw [h]) else .isFalse (by simp [h])
  | .error x, .error y =>
    if h : x = y then .isTrue (by rw [h]) else .isFalse (by simp [h])
  | .ok _, .error _ => .isFalse (by simp)
  | .error _, .ok _ => .isFalse (by simp)

/-- `bure.to_qthfields()`'s value (`360 - 4.8892801 = 355.1107199`). -/
def bureQth : QTHFields :=
  ⟨"Bure", .num ⟨false, 47738787, -6⟩, .num ⟨false, 3551107199, -7⟩,
   .num ⟨false, 20, -1⟩⟩

/-- `menesble.to_lrpfields()`'s value. -/
def menesbleLrp : LRPFields :=
  ⟨.num ⟨false, 4878048780487804878048780488, -26⟩, .num ⟨false, 80000, -2⟩,
   1, 5, .num ⟨false, 15000, -3⟩, .num ⟨false, 5, -3⟩,
   .num ⟨false, 301000, -3⟩, .num ⟨false, 50, -2⟩, .num ⟨false, 50, -2⟩⟩

/-! # Theorems -/

theorem workpath_filter_nil (l : List WorkPath) :
    l.filter (fun p => !p.insideWorkspace) = [] := by
  induction l with
  | nil => rfl
  | cons a t ih => simp [List.filter, WorkPath.insideWorkspace, ih]

/-- C6: a pipeline invocation whose external process exceeds the timeout
(default 2) fails with the timeout error, and on every exit path — success,
tool failure, timeout, missing report, parse failure — the workspace paths
are all removed, leaving nothing on disk. -/
theorem c6_timeout_and_cleanup :
    (∀ (t : Transmitter) (r : Receiver) (run : SubprocResult) (tm : ℕ),
      (splat_report_values t r run tm).2 = [])
    ∧ (∀ (t : Transmitter) (r : Receiver) (tm : ℕ)
        (tq rq : QTHFields) (tl : LRPFields),
        t.to_qthfields = some tq → t.to_lrpfields = some tl →
        r.to_qthfields = some rq →
        (splat_report_values t r .timesOut tm).1 = .error .timeoutExpired)
    ∧ defaultTimeout = 2 := by
  refine ⟨fun t r run tm => workpath_filter_nil _, ?_, rfl⟩
  intro t r tm tq rq tl h1 h2 h3
  unfold splat_report_values
  rw [h1, h2, h3]

theorem c6_timeout_and_cleanup_witness :
    menesble.to_qthfields = some menesbleQth ∧
    menesble.to_lrpfields = some menesbleLrp ∧
    bure.to_qthfields = some bureQth ∧
    (splat_report_values menesble bure .timesOut defaultTimeout).1 =
      .error .timeoutExpired ∧
    (splat_report_values menesble bure .timesOut defaultTimeout).2 = [] :=
  ⟨by decide, by decide, by decide,
   c6_timeout_and_cleanup.2.1 menesble bure defaultTimeout menesbleQth bureQth
     menesbleLrp (by decide) (by decide) (by decide),
   c6_timeout_and_cleanup.1 menesble bure .timesOut defaultTimeout⟩

/-- C3: whenever the three patterns cannot be located in order (the search
fails), the parser raises the report-parse error whose payload is the full
decoded report text; no partial result is produced. -/
theorem c3_report_parse_error (s : List Char) (h : rsearch1 s = none) :
    splat_report_parse s = .error (.reportError s) := by
  unfold splat_report_parse
  rw [h]

theorem c3_report_parse_error_witness :
    rsearch1 "Free space path loss: 1.0 dB but nothing else".data = none ∧
    splat_report_parse "Free space path loss: 1.0 dB but nothing else".data =
      .error (.reportError "Free space path loss: 1.0 dB but nothing else".data) :=
  ⟨by decide, c3_report_parse_error _ (by decide)⟩

/-- C7: the site-description encoder renders exactly the four lines — name,
latitude, east-to-west longitude, height with the literal " meters" suffix —
joined by newlines, in that order; for the Menesble transmitter the third
line is `355.09083` and the last line ends in `" meters"`. -/
theorem c7_qth_encoding :
    (∀ q : QTHFields, QTH_TEMPLATE_render q =
      q.name ++ "\n" ++ String.mk (pyDecStr q.latitude) ++ "\n" ++
      String.mk (pyDecStr q.longitude_EtoW) ++ "\n" ++
      (String.mk (pyDecStr q.height_m) ++ " meters"))
    ∧ Transmitter.to_qthfields menesble = some menesbleQth
    ∧ QTH_TEMPLATE_render menesbleQth = "Menesble\n47.78194\n355.09083\n41.0 meters"
    ∧ (QTH_TEMPLATE_render menesbleQth).data.splitOn '\n' =
        ["Menesble".data, "47.78194".data, "355.09083".data, "41.0 meters".data]
    ∧ " meters".data <:+ (QTH_TEMPLATE_render menesbleQth).data :=
  ⟨fun _ => rfl, by decide, by decide, by decide, by decide⟩

/-- C8: the link-parameter encoder renders exactly nine lines in the fixed
order — earth dielectric constant, earth conductivity, atmospheric bending
constant, frequency, radio climate, polarization, fraction of situations,
fraction of time, ERP — each line starting with the value and followed only
by its inline comment. -/
theorem c8_lrp_encoding :
    (∀ l : LRPFields, LRP_TEMPLATE_render l =
      (String.mk (pyDecStr l.earth_dielectric_constant) ++ "\t; Earth Dielectric Constant (Relative permittivity)") ++ "\n" ++
      (String.mk (pyDecStr l.earth_conductivity) ++ "; Earth Conductivity (Siemens per meter)") ++ "\n" ++
      (String.mk (pyDecStr l.atmospheric_bending_constant) ++ "\t; Atmospheric Bending Constant (N-Units)") ++ "\n" ++
      (String.mk (pyDecStr l.frequency_MHz) ++ "\t; Frequency in MHz (20 MHz to 20 GHz)") ++ "\n" ++
      (String.mk (natDigits l.radio_climate) ++ "\t; Radio Climate") ++ "\n" ++
      (String.mk (natDigits l.polarization) ++ "\t; Polarization (0 = Horizontal, 1 = Vertical)") ++ "\n" ++
      (String.mk (pyDecStr l.fraction_situations) ++ "\t; Fraction of Situations") ++ "\n" ++
      (String.mk (pyDecStr l.fraction_time) ++ "\t; Fraction of Time") ++ "\n" ++
      (String.mk (pyDecStr l.erp_W) ++ " ; ERP"))
    ∧ Transmitter.to_lrpfields menesble = some menesbleLrp
    ∧ (LRP_TEMPLATE_render menesbleLrp).data.splitOn '\n' =
        ["15.000\t; Earth Dielectric Constant (Relative permittivity)".data,
         "0.005; Earth Conductivity (Siemens per meter)".data,
         "301.000\t; Atmospheric Bending Constant (N-Units)".data,
         "800.00\t; Frequency in MHz (20 MHz to 20 GHz)".data,
         "5\t; Radio Climate".data,
         "1\t; Polarization (0 = Horizontal, 1 = Vertical)".data,
         "0.50\t; Fraction of Situations".data,
         "0.50\t; Fraction of Time".data,
         "48.78048780487804878048780488 ; ERP".data] :=
  ⟨fun _ => rfl, by decide, by decide⟩

/-- C5: `to_lrpfields` returns `erp_W = eirp_W / 1.64` under the decimal
division rules (for `eirp_W = 80.0` exactly `48.78048780487804878048780488`),
the five documented constants `15.000`, `0.005`, `301.000`, `0.50`, `0.50`,
and the transmitter's `frequency_MHz`, `polarization` and `radio_climate`
unchanged. -/
theorem c5_lrpfields_values :
    (∀ (t : Transmitter) (e : PyDec), pyDecDiv t.eirp_W (.num d164) = some e →
      Transmitter.to_lrpfields t = some ⟨e, t.frequency_MHz, t.polarization,
        t.radio_climate, .num ⟨false, 15000, -3⟩, .num ⟨false, 5, -3⟩,
        .num ⟨false, 301000, -3⟩, .num ⟨false, 50, -2⟩, .num ⟨false, 50, -2⟩⟩)
    ∧ decDivFin ⟨false, 800, -1⟩ d164 =
        some ⟨false, 4878048780487804878048780488, -26⟩
    ∧ decParse "80.0".data = some (.num ⟨false, 800, -1⟩)
    ∧ decParse "1.64".data = some (.num d164)
    ∧ decParse "15.000".data = some (.num ⟨false, 15000, -3⟩)
    ∧ decParse "0.005".data = some (.num ⟨false, 5, -3⟩)
    ∧ decParse "301.000".data = some (.num ⟨false, 301000, -3⟩)
    ∧ decParse "0.50".data = some (.num ⟨false, 50, -2⟩)
    ∧ decStr ⟨false, 4878048780487804878048780488, -26⟩ =
        "48.78048780487804878048780488".data := by
  refine ⟨?_, by decide, by decide, by decide, by decide, by decide, by decide,
    by decide, by decide⟩
  intro t e h
  unfold Transmitter.to_lrpfields
  rw [h]
  rfl

theorem c5_lrpfields_values_witness :
    pyDecDiv menesble.eirp_W (.num d164) =
      some (.num ⟨false, 4878048780487804878048780488, -26⟩) ∧
    Transmitter.to_lrpfields menesble = some menesbleLrp :=
  ⟨by decide,
   c5_lrpfields_values.1 menesble (.num ⟨false, 4878048780487804878048780488, -26⟩)
     (by decide)⟩

/-- C9: a caller-supplied scalar that cannot be coerced to a decimal makes
`Transmitter` / `Receiver` construction fail with the constructor-time
error, and a successful construction stores exactly the coerced values —
never a default. -/
theorem c9_construction_validation :
    (∀ (name : String) (lat lon h ei fr : PyVal) (pol clim : ℕ),
      ((∃ e, convert_to_decimal lat = .error e) ∨
       (∃ e, convert_to_decimal lon = .error e) ∨
       (∃ e, convert_to_decimal h = .error e) ∨
       (∃ e, convert_to_decimal ei = .error e) ∨
       (∃ e, convert_to_decimal fr = .error e)) →
      ∃ e, mkTransmitter name lat lon h ei fr pol clim = .error e)
    ∧ (∀ (name : String) (lat lon h ei fr : PyVal) (pol clim : ℕ)
        (t : Transmitter), mkTransmitter name lat lon h ei fr pol clim = .ok t →
        convert_to_decimal lat = .ok t.latitude ∧
        convert_to_decimal lon = .ok t.longitude_WtoE ∧
        convert_to_decimal h = .ok t.height_m ∧
        convert_to_decimal ei = .ok t.eirp_W ∧
        convert_to_decimal fr = .ok t.frequency_MHz ∧
        t.name = name ∧ t.polarization = pol ∧ t.radio_climate = clim)
    ∧ (∀ (name : String) (lat lon h : PyVal),
      ((∃ e, convert_to_decimal lat = .error e) ∨
       (∃ e, convert_to_decimal lon = .error e) ∨
       (∃ e, convert_to_decimal h = .error e)) →
      ∃ e, mkReceiver name lat lon h = .error e)
    ∧ convert_to_decimal (.str "not a number".data) = .error .invalidOperation := by
  refine ⟨?_, ?_, ?_, by decide⟩
  · intro name lat lon h ei fr pol clim hd
    unfold mkTransmitter
    cases h1 : convert_to_decimal lat with
    | error e => exact ⟨e, rfl⟩
    | ok v1 =>
      cases h2 : convert_to_decimal lon with
      | error e => exact ⟨e, rfl⟩
      | ok v2 =>
        cases h3 : convert_to_decimal h with
        | error e => exact ⟨e, rfl⟩
        | ok v3 =>
          cases h4 : convert_to_decimal ei with
          | error e => exact ⟨e, rfl⟩
          | ok v4 =>
            cases h5 : convert_to_decimal fr with
            | error e => exact ⟨e, rfl⟩
            | ok v5 =>
              exfalso
              rcases hd with ⟨e, he⟩ | ⟨e, he⟩ | ⟨e, he⟩ | ⟨e, he⟩ | ⟨e, he⟩ <;>
                simp_all
  · intro name lat lon h ei fr pol clim t ht
    unfold mkTransmitter at ht
    cases h1 : convert_to_decimal lat with
    | error e => rw [h1] at ht; exact absurd ht (by simp)
    | ok v1 =>
      rw [h1] at ht
      cases h2 : convert_to_decimal lon with
      | error e => rw [h2] at ht; exact absurd ht (by simp)
      | ok v2 =>
        rw [h2] at ht
        cases h3 : convert_to_decimal h with
        | error e => rw [h3] at ht; exact absurd ht (by simp)
        | ok v3 =>
          rw [h3] at ht
          cases h4 : convert_to_decimal ei with
          | error e => rw [h4] at ht; exact absurd ht (by simp)
          | ok v4 =>
            rw [h4] at ht
            cases h5 : convert_to_decimal fr with
            | error e => rw [h5] at ht; exact absurd ht (by simp)
            | ok v5 =>
              rw [h5] at ht
              have : (⟨name, v1, v2, v3, v4, v5, pol, clim⟩ : Transmitter) = t := by
                exact Except.ok.inj ht
              subst this
              exact ⟨rfl, rfl, rfl, rfl, rfl, rfl, rfl, rfl⟩
  · intro name lat lon h hd
    unfold mkReceiver
    cases h1 : convert_to_decimal lat with
    | error e => exact ⟨e, rfl⟩
    | ok v1 =>
      cases h2 : convert_to_decimal lon with
      | error e => exact ⟨e, rfl⟩
      | ok v2 =>
        cases h3 : convert_to_decimal h with
        | error e => exact ⟨e, rfl⟩
        | ok v3 =>
          exfalso
          rcases hd with ⟨e, he⟩ | ⟨e, he⟩ | ⟨e, he⟩ <;> simp_all

theorem c9_construction_validation_witness :
    (∃ e, convert_to_decimal (.str "not a number".data) = .error e) ∧
    (∃ e, mkTransmitter "T" (.str "not a number".data) (.dec (.num ⟨false, 1, 0⟩))
      (.dec (.num ⟨false, 1, 0⟩)) (.dec (.num ⟨false, 1, 0⟩))
      (.dec (.num ⟨false, 1, 0⟩)) 1 5 = .error e) ∧
    (∃ e, mkReceiver "R" (.dec (.num ⟨false, 1, 0⟩)) (.str "4x".data)
      (.dec (.num ⟨false, 1, 0⟩)) = .error e) :=
  ⟨⟨.invalidOperation, by decide⟩,
   c9_construction_validation.1 "T" _ _ _ _ _ 1 5
     (Or.inl ⟨.invalidOperation, by decide⟩),
   c9_construction_validation.2.2.1 "R" _ _ _
     (Or.inr (Or.inl ⟨.invalidOperation, by decide⟩))⟩

/-- C4: a binary float supplied to a decimal field is coerced through its
decimal string form (`Decimal(str(val))`), never by the direct numeric cast
(`Decimal(val)` would expose the exact binary expansion): the float `0.1`
is stored as the decimal `0.1` and prints back as `"0.1"`, where the direct
cast would give `0.1000000000000000055511151231257827021181583404541015625`;
the string `"41.0"` is stored as `41.0` and prints back as exactly
`"41.0"`. -/
theorem c4_float_via_string :
    (∀ f : Float64, convert_to_decimal (.flt f) =
      (decParse (floatRepr f)).elim (.error .invalidOperation) .ok)
    ∧ floatRepr float01 = "0.1".data
    ∧ convert_to_decimal (.flt float01) = .ok (.num ⟨false, 1, -1⟩)
    ∧ decFromFloat float01 =
        ⟨false, 1000000000000000055511151231257827021181583404541015625, -55⟩
    ∧ dval ⟨false, 1000000000000000055511151231257827021181583404541015625, -55⟩ ≠
        dval ⟨false, 1, -1⟩
    ∧ pyDecStr (.num ⟨false, 1, -1⟩) = "0.1".data
    ∧ convert_to_decimal (.str "41.0".data) = .ok (.num ⟨false, 410, -1⟩)
    ∧ pyDecStr (.num ⟨false, 410, -1⟩) = "41.0".data := by
  refine ⟨?_, by decide, by decide, by decide, ?_, by decide, by decide, by decide⟩
  · intro f
    cases h : decParse (floatRepr f) <;> simp [convert_to_decimal, h, Option.elim]
  · norm_num [dval]

/-- C1 (counterexample): for `longitude_WtoE = 370` the code yields
`longitude_EtoW = -10` — Python's `Decimal.__mod__` keeps the dividend's
sign — which is negative, not in `[0, 360)`, and differs from
`(360 - 370) mod 360 = 350`; and for an in-range longitude of 29 significant
digits the subtraction `360 - longitude_WtoE` is rounded to 28 digits, so
the result differs from the exact `(360 - longitude_WtoE) mod 360`. -/
theorem c1_longitude_counterexample :
    Transmitter.to_qthfields tx370 = some ⟨"T", .num ⟨false, 0, 0⟩,
      .num ⟨true, 10, 0⟩, .num ⟨false, 0, 0⟩⟩
    ∧ Receiver.to_qthfields rx370 = some ⟨"R", .num ⟨false, 0, 0⟩,
      .num ⟨true, 10, 0⟩, .num ⟨false, 0, 0⟩⟩
    ∧ dval ⟨true, 10, 0⟩ = -10
    ∧ ¬ (0 ≤ dval ⟨true, 10, 0⟩)
    ∧ ((360 - dval ⟨false, 370, 0⟩) - 360 * ⌊(360 - dval ⟨false, 370, 0⟩) / 360⌋ = 350)
    ∧ dval ⟨true, 10, 0⟩ ≠ 350
    ∧ (0 ≤ dval lonHiPrec ∧ dval lonHiPrec ≤ 360)
    ∧ lonEtoW (.num lonHiPrec) =
        some (.num ⟨false, 3587654321098765432109876543, -25⟩)
    ∧ dval ⟨false, 3587654321098765432109876543, -25⟩ ≠
        (360 - dval lonHiPrec) - 360 * ⌊(360 - dval lonHiPrec) / 360⌋ := by
  refine ⟨by decide, by decide, by norm_num [dval], by norm_num [dval], ?_,
    by norm_num [dval], ?_, by decide, ?_⟩
  · norm_num [dval]
  · constructor <;> norm_num [dval, lonHiPrec]
  · have hfl : ⌊(360 - dval lonHiPrec) / 360⌋ = 0 := by
      rw [Int.floor_eq_zero_iff]
      constructor
      · norm_num [dval, lonHiPrec]
      · norm_num [dval, lonHiPrec]
    rw [hfl]
    norm_num [dval, lonHiPrec]

/-! ## Pattern-matching shape lemmas -/

theorem matchPat_append (p q : List (Option Char)) :
    ∀ s, matchPat (p ++ q) s = (matchPat p s).bind (matchPat q) := by
  induction p with
  | nil => intro s; rfl
  | cons oc pt ih =>
    intro s
    cases s with
    | nil => rfl
    | cons c t =>
      cases oc with
      | none => simpa [matchPat] using ih t
      | some c' =>
        by_cases h : c = c' <;> simp [matchPat, h, ih t]

theorem matchPat_map_some (l : List Char) :
    ∀ s r, matchPat (l.map some) s = some r ↔ s = l ++ r := by
  induction l with
  | nil =>
    intro s r
    simp [matchPat, eq_comm]
  | cons c l ih =>
    intro s r
    cases s with
    | nil => simp [matchPat]
    | cons a t =>
      by_cases h : a = c
      · subst h
        simp [matchPat, ih t r]
      · simp [matchPat, h]

theorem matchPat_wild (pt : List (Option Char)) (s : List Char) (r : List Char) :
    matchPat (none :: pt) s = some r ↔
      ∃ c t, s = c :: t ∧ matchPat pt t = some r := by
  cases s with
  | nil => simp [matchPat]
  | cons c t =>
    simp only [matchPat]
    constructor
    · intro h; exact ⟨c, t, rfl, h⟩
    · rintro ⟨c1, t1, heq, h⟩
      injection heq with h1 h2
      subst h1; subst h2
      exact h

theorem decPatMatch_some {s g r} (h : decPatMatch s = some (g, r)) :
    ∃ d1 d2, s = d1 ++ '.' :: (d2 ++ r) ∧ (∀ c ∈ d1, c.isDigit) ∧
      (∀ c ∈ d2, c.isDigit) ∧ g = d1 ++ '.' :: d2 := by
  unfold decPatMatch at h
  simp only [List.span_eq_take_drop] at h
  split at h
  · rename_i r2 heq
    simp only [Option.some.injEq, Prod.mk.injEq] at h
    refine ⟨s.takeWhile (·.isDigit), r2.takeWhile (·.isDigit), ?_, ?_, ?_, h.1.symm⟩
    · conv_lhs => rw [← List.takeWhile_append_dropWhile (p := (·.isDigit)) (l := s)]
      rw [heq]
      congr 1
      rw [← h.2]
      exact congrArg ('.' :: ·) (List.takeWhile_append_dropWhile ..).symm
    · intro c hc; exact List.mem_takeWhile_imp hc
    · intro c hc; exact List.mem_takeWhile_imp hc
  · exact absurd h (by simp)

theorem segMatch_some {pre post s g r} (h : segMatch pre post s = some (g, r)) :
    ∃ r1 r2, matchPat pre s = some r1 ∧ decPatMatch r1 = some (g, r2) ∧
      matchPat post r2 = some r := by
  unfold segMatch at h
  split at h
  · exact absurd h (by simp)
  · rename_i r1 h1
    split at h
    · exact absurd h (by simp)
    · rename_i gr h2
      split at h
      · exact absurd h (by simp)
      · rename_i r3 h3
        simp only [Option.some.injEq, Prod.mk.injEq] at h
        refine ⟨r1, gr.2, h1, ?_, ?_⟩
        · rw [h2, ← h.1]
        · rw [h3, h.2]

/-- Head literal of the ITWOM pattern. -/
def itF1 : List Char := "ITWOM Version 3".data

/-- Tail literal of the ITWOM pattern, after the wildcard. -/
def itF2 : List Char := "0 path loss: ".data

/-- Full decomposition of a successful ITWOM segment match. -/
theorem matchIT_some {s g r} (h : matchIT s = some (g, r)) :
    ∃ w d1 d2, s = itF1 ++ w :: (itF2 ++ (d1 ++ '.' :: (d2 ++ (" dB".data ++ r)))) ∧
      (∀ c ∈ d1, c.isDigit) ∧ (∀ c ∈ d2, c.isDigit) ∧ g = d1 ++ '.' :: d2 := by
  obtain ⟨r1, r2, h1, h2, h3⟩ := segMatch_some h
  have hpat : itwomPat = itF1.map some ++ (none :: itF2.map some) := by decide
  rw [hpat, matchPat_append] at h1
  cases hA : matchPat (itF1.map some) s with
  | none => rw [hA] at h1; exact absurd h1 (by simp)
  | some m1 =>
    rw [hA] at h1
    rw [Option.some_bind] at h1
    rw [matchPat_wild] at h1
    obtain ⟨w, t, hm1, ht⟩ := h1
    rw [matchPat_map_some] at ht hA
    obtain ⟨d1, d2, hr1, hd1, hd2, hg⟩ := decPatMatch_some h2
    rw [show dbPat = (" dB".data).map some from rfl, matchPat_map_some] at h3
    refine ⟨w, d1, d2, ?_, hd1, hd2, hg⟩
    rw [hA, hm1, ht, hr1, h3]

/-- Full decomposition of a successful free-space segment match. -/
theorem matchFS_some {s g r} (h : matchFS s = some (g, r)) :
    ∃ d1 d2, s = "Free space path loss: ".data ++
        (d1 ++ '.' :: (d2 ++ (" dB".data ++ r))) ∧
      (∀ c ∈ d1, c.isDigit) ∧ (∀ c ∈ d2, c.isDigit) ∧ g = d1 ++ '.' :: d2 := by
  obtain ⟨r1, r2, h1, h2, h3⟩ := segMatch_some h
  have hpat : freePat = ("Free space path loss: ".data).map some := by decide
  rw [hpat, matchPat_map_some] at h1
  obtain ⟨d1, d2, hr1, hd1, hd2, hg⟩ := decPatMatch_some h2
  rw [show dbPat = (" dB".data).map some from rfl, matchPat_map_some] at h3
  exact ⟨d1, d2, by rw [h1, hr1, h3], hd1, hd2, hg⟩

/-- Full decomposition of a successful field-strength segment match. -/
theorem matchDBuV_some {s g r} (h : matchDBuV s = some (g, r)) :
    ∃ d1 d2, s = d1 ++ '.' :: (d2 ++ (" dBuV/meter".data ++ r)) ∧
      (∀ c ∈ d1, c.isDigit) ∧ (∀ c ∈ d2, c.isDigit) ∧ g = d1 ++ '.' :: d2 := by
  obtain ⟨r1, r2, h1, h2, h3⟩ := segMatch_some h
  have h1' : s = r1 := Option.some.inj h1.symm ▸ rfl
  obtain ⟨d1, d2, hr1, hd1, hd2, hg⟩ := decPatMatch_some h2
  rw [show dbuvPat = (" dBuV/meter".data).map some from rfl, matchPat_map_some] at h3
  subst h1'
  exact ⟨d1, d2, by rw [hr1, h3], hd1, hd2, hg⟩

/-! ## Suffix machinery for the leftmost-match argument -/

theorem suffix_append_cases {α : Type} {u l : List α} (x : List α)
    (h : u <:+ x ++ l) :
    u <:+ l ∨ ∃ x', x' <:+ x ∧ x' ≠ [] ∧ u = x' ++ l := by
  induction x with
  | nil => exact Or.inl (by simpa using h)
  | cons a x ih =>
    rw [List.cons_append, List.suffix_cons_iff] at h
    rcases h with h | h
    · exact Or.inr ⟨a :: x, List.suffix_rfl, by simp, by rw [h, List.cons_append]⟩
    · rcases ih h with h' | ⟨x', hx', hne, hu⟩
      · exact Or.inl h'
      · exact Or.inr ⟨x', hx'.trans (List.suffix_cons a x), hne, hu⟩

theorem head_mem_of_suffix {α : Type} {c : α} {t x : List α}
    (h : c :: t <:+ x) : c ∈ x :=
  h.mem (List.mem_cons_self c t)

/-- The wildcard character aside, no character inside the matched part of an
ITWOM segment (after its leading `'I'`) is an `'I'`. -/
theorem not_I_mem_mid {d1 d2 : List Char} (hd1 : ∀ c ∈ d1, c.isDigit)
    (hd2 : ∀ c ∈ d2, c.isDigit) :
    'I' ∉ itF2 ++ d1 ++ ('.' :: d2) ++ " dB".data := by
  intro hmem
  simp only [List.mem_append, List.mem_cons] at hmem
  rcases hmem with ((h | h) | h) | h
  · revert h; decide
  · exact absurd (hd1 _ h) (by decide)
  · rcases h with h | h
    · exact absurd h (by decide)
    · exact absurd (hd2 _ h) (by decide)
  · revert h; decide

theorem not_F_mem_mid {d1 d2 : List Char} (hd1 : ∀ c ∈ d1, c.isDigit)
    (hd2 : ∀ c ∈ d2, c.isDigit) :
    'F' ∉ d1 ++ ('.' :: d2) ++ " dB".data := by
  intro hmem
  simp only [List.mem_append, List.mem_cons] at hmem
  rcases hmem with (h | h | h) | h
  · exact absurd (hd1 _ h) (by decide)
  · exact absurd h (by decide)
  · exact absurd (hd2 _ h) (by decide)
  · revert h; decide

theorem matchIT_head {s g r} (h : matchIT s = some (g, r)) :
    ∃ v, s = 'I' :: 'T' :: v := by
  obtain ⟨w, d1, d2, hs, -, -, -⟩ := matchIT_some h
  exact ⟨_, by rw [hs]; rfl⟩

theorem matchFS_head {s g r} (h : matchFS s = some (g, r)) :
    ∃ v, s = 'F' :: v := by
  obtain ⟨d1, d2, hs, -, -, -⟩ := matchFS_some h
  exact ⟨_, by rw [hs]; rfl⟩

/-- A later ITWOM match inside the text covered by an earlier ITWOM match is
impossible: any strictly later ITWOM match begins at or after the earlier
match's end, so its rest is a suffix of the earlier rest. -/
theorem matchIT_no_overlap {s u : List Char} {g r g' r'}
    (hs : matchIT s = some (g, r)) (hu : u <:+ s) (hne : u ≠ s)
    (hmu : matchIT u = some (g', r')) : r' <:+ r := by
  obtain ⟨w, d1, d2, hshape, hd1, hd2, -⟩ := matchIT_some hs
  obtain ⟨v, hv⟩ := matchIT_head hmu
  obtain ⟨w', e1, e2, hu_shape, -, -, -⟩ := matchIT_some hmu
  have hr'u : r' <:+ u := by
    have he : u = (itF1 ++ w' :: (itF2 ++ e1 ++ '.' :: e2 ++ " dB".data)) ++ r' := by
      rw [hu_shape]; simp [List.append_assoc]
    rw [he]
    exact List.suffix_append _ _
  rw [hshape] at hu hne
  rcases suffix_append_cases itF1 hu with h1 | ⟨x', hx', hxne, hu_eq⟩
  · rw [List.suffix_cons_iff] at h1
    rcases h1 with h1 | h1
    · exfalso
      rw [hv] at h1
      have h2 : ('T' : Char) :: v = itF2 ++ (d1 ++ '.' :: (d2 ++ (" dB".data ++ r))) := by
        injection h1
      rw [show itF2 = '0' :: " path loss: ".data from rfl] at h2
      injection h2 with h4 _
      exact absurd h4 (by decide)
    · have hre : itF2 ++ (d1 ++ '.' :: (d2 ++ (" dB".data ++ r))) =
          (itF2 ++ d1 ++ ('.' :: d2) ++ " dB".data) ++ r := by
        simp [List.append_assoc]
      rw [hre] at h1
      rcases suffix_append_cases _ h1 with h2 | ⟨y', hy', hyne, hu_eq2⟩
      · exact hr'u.trans h2
      · exfalso
        cases y' with
        | nil => exact hyne rfl
        | cons c0 t0 =>
          have heq := hv.symm.trans hu_eq2
          rw [List.cons_append] at heq
          injection heq with ha _
          rw [← ha] at hy'
          exact not_I_mem_mid hd1 hd2 (head_mem_of_suffix hy')
  · exfalso
    by_cases hfull : x' = itF1
    · rw [hfull] at hu_eq
      exact hne hu_eq
    · have hfi : itF1 = 'I' :: "TWOM Version 3".data := rfl
      have h2 := hx'
      rw [hfi, List.suffix_cons_iff] at h2
      have hx'tail : x' <:+ "TWOM Version 3".data := by
        rcases h2 with h2 | h2
        · exact absurd (h2.trans hfi.symm) hfull
        · exact h2
      cases x' with
      | nil => exact hxne rfl
      | cons c0 t0 =>
        have heq := hv.symm.trans hu_eq
        rw [List.cons_append] at heq
        injection heq with ha _
        rw [← ha] at hx'tail
        have hmem : ('I' : Char) ∈ "TWOM Version 3".data := head_mem_of_suffix hx'tail
        revert hmem; decide

/-- The free-space analogue of `matchIT_no_overlap`. -/
theorem matchFS_no_overlap {s u : List Char} {g r g' r'}
    (hs : matchFS s = some (g, r)) (hu : u <:+ s) (hne : u ≠ s)
    (hmu : matchFS u = some (g', r')) : r' <:+ r := by
  obtain ⟨d1, d2, hshape, hd1, hd2, -⟩ := matchFS_some hs
  obtain ⟨v, hv⟩ := matchFS_head hmu
  obtain ⟨e1, e2, hu_shape, -, -, -⟩ := matchFS_some hmu
  have hr'u : r' <:+ u := by
    have he : u = ("Free space path loss: ".data ++ e1 ++ '.' :: e2 ++ " dB".data) ++ r' := by
      rw [hu_shape]; simp [List.append_assoc]
    rw [he]
    exact List.suffix_append _ _
  rw [hshape] at hu hne
  rcases suffix_append_cases "Free space path loss: ".data hu with
    h1 | ⟨x', hx', hxne, hu_eq⟩
  · have hre : d1 ++ '.' :: (d2 ++ (" dB".data ++ r)) =
        (d1 ++ ('.' :: d2) ++ " dB".data) ++ r := by
      simp [List.append_assoc]
    rw [hre] at h1
    rcases suffix_append_cases _ h1 with h2 | ⟨y', hy', hyne, hu_eq2⟩
    · exact hr'u.trans h2
    · exfalso
      cases y' with
      | nil => exact hyne rfl
      | cons c0 t0 =>
        have heq := hv.symm.trans hu_eq2
        rw [List.cons_append] at heq
        injection heq with ha _
        rw [← ha] at hy'
        exact not_F_mem_mid hd1 hd2 (head_mem_of_suffix hy')
  · exfalso
    by_cases hfull : x' = "Free space path loss: ".data
    · rw [hfull] at hu_eq
      exact hne hu_eq
    · have hfi : "Free space path loss: ".data = 'F' :: "ree space path loss: ".data := rfl
      have h2 := hx'
      rw [hfi, List.suffix_cons_iff] at h2
      have hx'tail : x' <:+ "ree space path loss: ".data := by
        rcases h2 with h2 | h2
        · exact absurd (h2.trans hfi.symm) hfull
        · exact h2
      cases x' with
      | nil => exact hxne rfl
      | cons c0 t0 =>
        have heq := hv.symm.trans hu_eq
        rw [List.cons_append] at heq
        injection heq with ha _
        rw [← ha] at hx'tail
        have hmem : ('F' : Char) ∈ "ree space path loss: ".data :=
          head_mem_of_suffix hx'tail
        revert hmem; decide

/-! ## `firstMatch` properties -/

theorem firstMatch_cons {α : Type} (f : List Char → Option α) (c : Char)
    (t : List Char) :
    firstMatch f (c :: t) =
      match f (c :: t) with
      | some a => some a
      | none => firstMatch f t := rfl

theorem firstMatch_of_self {α : Type} {f : List Char → Option α} {s : List Char}
    {b : α} (h : f s = some b) : firstMatch f s = some b := by
  cases s with
  | nil => exact h
  | cons c t => rw [firstMatch_cons, h]

theorem firstMatch_none_suffix {α : Type} {f : List Char → Option α}
    {s u : List Char} (hu : u <:+ s) (h : firstMatch f s = none) :
    firstMatch f u = none := by
  induction s with
  | nil =>
    rw [List.suffix_nil] at hu
    rw [hu]; exact h
  | cons c t ih =>
    rw [List.suffix_cons_iff] at hu
    rcases hu with rfl | hu
    · exact h
    · rw [firstMatch_cons] at h
      cases hf : f (c :: t) with
      | some a => rw [hf] at h; exact absurd h (by simp)
      | none => rw [hf] at h; exact ih hu h

theorem firstMatch_none_of_suffix_none {α : Type} {f : List Char → Option α}
    {s u : List Char} (hu : u <:+ s) (h : firstMatch f s = none) : f u = none := by
  have := firstMatch_none_suffix hu h
  cases hf : f u with
  | none => rfl
  | some b => rw [firstMatch_of_self hf] at this; exact absurd this (by simp)

/-- `firstMatch` finds the leftmost (longest-suffix) match: a witness suffix
on which `f` succeeds and of which every successful suffix is a suffix. -/
theorem firstMatch_first {α : Type} {f : List Char → Option α} {s : List Char}
    {b : α} (h : firstMatch f s = some b) :
    ∃ u, u <:+ s ∧ f u = some b ∧
      ∀ u', u' <:+ s → f u' ≠ none → u' <:+ u := by
  induction s with
  | nil =>
    refine ⟨[], List.suffix_rfl, h, ?_⟩
    intro u' hu' _
    exact hu'
  | cons c t ih =>
    rw [firstMatch_cons] at h
    cases hf : f (c :: t) with
    | some a =>
      rw [hf] at h
      refine ⟨c :: t, List.suffix_rfl, by rw [hf, ← h], ?_⟩
      intro u' hu' _
      exact hu'
    | none =>
      rw [hf] at h
      obtain ⟨u, hu, hfu, hmax⟩ := ih h
      refine ⟨u, hu.trans (List.suffix_cons c t), hfu, ?_⟩
      intro u' hu' hne
      rw [List.suffix_cons_iff] at hu'
      rcases hu' with rfl | hu'
      · exact absurd hf hne
      · exact hmax u' hu' hne

theorem firstMatch_exists {α : Type} {f : List Char → Option α} {s : List Char}
    {b : α} (h : firstMatch f s = some b) : ∃ u, u <:+ s ∧ f u = some b := by
  obtain ⟨u, hu, hfu, -⟩ := firstMatch_first h
  exact ⟨u, hu, hfu⟩

/-! ## Equivalence of the regex search with the ordered scanner -/

theorem stage23_eq_none_of {s : List Char} (h : firstMatch matchIT s = none) :
    stage23 s = none := by
  unfold stage23; rw [h]

theorem stage23_eq_of_some {s g2 r} (h : firstMatch matchIT s = some (g2, r)) :
    stage23 s = match firstMatch matchDBuV r with
      | none => none
      | some (g3, _) => some (g2, g3) := by
  unfold stage23; rw [h]

theorem rsearch2_cons (c : Char) (t : List Char) :
    rsearch2 (c :: t) =
      match matchIT (c :: t) with
      | some (g2, r) =>
        match scan3 r with
        | some g3 => some (g2, g3)
        | none => rsearch2 t
      | none => rsearch2 t := rfl

theorem rsearch1_cons (c : Char) (t : List Char) :
    rsearch1 (c :: t) =
      match matchFS (c :: t) with
      | some (g1, r) =>
        match rsearch2 r with
        | some (g2, g3) => some (g1, g2, g3)
        | none => rsearch1 t
      | none => rsearch1 t := rfl

theorem matchIT_nil : matchIT ([] : List Char) = none := by decide

theorem matchFS_nil : matchFS ([] : List Char) = none := by decide

theorem ne_cons_self_of_suffix {c : Char} {t u : List Char} (hu : u <:+ t) :
    u ≠ c :: t := by
  intro heq
  have hl := hu.length_le
  rw [heq] at hl
  simp at hl

theorem orderedScan_eq_none_of {s : List Char} (h : firstMatch matchFS s = none) :
    orderedScan s = none := by
  unfold orderedScan; rw [h]

theorem orderedScan_eq_of_some {s g1 r} (h : firstMatch matchFS s = some (g1, r)) :
    orderedScan s = match stage23 r with
      | none => none
      | some (g2, g3) => some (g1, g2, g3) := by
  unfold orderedScan; rw [h]

theorem rsearch2_cons_some {c : Char} {t g2 r} (h : matchIT (c :: t) = some (g2, r)) :
    rsearch2 (c :: t) =
      match scan3 r with
      | some g3 => some (g2, g3)
      | none => rsearch2 t := by
  rw [rsearch2_cons, h]

theorem rsearch2_cons_none {c : Char} {t} (h : matchIT (c :: t) = none) :
    rsearch2 (c :: t) = rsearch2 t := by
  rw [rsearch2_cons, h]

theorem rsearch1_cons_some {c : Char} {t g1 r} (h : matchFS (c :: t) = some (g1, r)) :
    rsearch1 (c :: t) =
      match rsearch2 r with
      | some (g2, g3) => some (g1, g2, g3)
      | none => rsearch1 t := by
  rw [rsearch1_cons, h]

theorem rsearch1_cons_none {c : Char} {t} (h : matchFS (c :: t) = none) :
    rsearch1 (c :: t) = rsearch1 t := by
  rw [rsearch1_cons, h]

/-- The backtracking second stage agrees with the committing scanner: if the
first ITWOM occurrence has no field-strength pattern after it, no later one
has either. -/
theorem rsearch2_eq_stage23 : ∀ s, rsearch2 s = stage23 s := by
  intro s
  induction s with
  | nil =>
    rw [show rsearch2 [] = none from rfl,
      stage23_eq_none_of (show firstMatch matchIT [] = none from matchIT_nil)]
  | cons c t ih =>
    cases hit : matchIT (c :: t) with
    | none =>
      rw [rsearch2_cons_none hit, ih]
      unfold stage23
      rw [firstMatch_cons, hit]
    | some gr =>
      obtain ⟨g2, r⟩ := gr
      have hfm : firstMatch matchIT (c :: t) = some (g2, r) := firstMatch_of_self hit
      cases hdb : firstMatch matchDBuV r with
      | some g3r =>
        have hscan : scan3 r = some g3r.1 := by rw [scan3, hdb]; rfl
        rw [rsearch2_cons_some hit, hscan, stage23_eq_of_some hfm, hdb]
      | none =>
        have hscan : scan3 r = none := by rw [scan3, hdb]; rfl
        have hR : stage23 (c :: t) = none := by
          rw [stage23_eq_of_some hfm, hdb]
        have hL : stage23 t = none := by
          cases h4 : firstMatch matchIT t with
          | none => exact stage23_eq_none_of h4
          | some gr' =>
            obtain ⟨g2', ρ'⟩ := gr'
            obtain ⟨u, hu, hfu⟩ := firstMatch_exists h4
            have hρ' : ρ' <:+ r :=
              matchIT_no_overlap hit (hu.trans (List.suffix_cons c t))
                (ne_cons_self_of_suffix hu) hfu
            rw [stage23_eq_of_some h4, firstMatch_none_suffix hρ' hdb]
        rw [rsearch2_cons_some hit, hscan, ih, hL, hR]

/-- If the committed second stage fails on a text, it fails on every suffix
of it. -/
theorem stage23_none_suffix {r r' : List Char} (hsub : r' <:+ r)
    (h : stage23 r = none) : stage23 r' = none := by
  cases h4 : firstMatch matchIT r' with
  | none => exact stage23_eq_none_of h4
  | some gr' =>
    obtain ⟨g2', ρ'⟩ := gr'
    obtain ⟨u', hu', hfu'⟩ := firstMatch_exists h4
    cases h5 : firstMatch matchIT r with
    | none =>
      exfalso
      have hn := firstMatch_none_of_suffix_none (hu'.trans hsub) h5
      rw [hfu'] at hn
      exact absurd hn (by simp)
    | some gr =>
      obtain ⟨g2, ρ⟩ := gr
      rw [stage23_eq_of_some h5] at h
      cases h6 : firstMatch matchDBuV ρ with
      | some g3r => rw [h6] at h; exact absurd h (by simp)
      | none =>
        obtain ⟨u, hu, hfu, hmax⟩ := firstMatch_first h5
        have husub : u' <:+ u := hmax u' (hu'.trans hsub) (by rw [hfu']; simp)
        have hρsub : ρ' <:+ ρ := by
          by_cases heq : u' = u
          · rw [heq, hfu] at hfu'
            have h8 := Option.some.inj hfu'
            rw [show ρ' = ρ from (congrArg Prod.snd h8).symm]
          · exact matchIT_no_overlap hfu husub heq hfu'
        rw [stage23_eq_of_some h4, firstMatch_none_suffix hρsub h6]

/-- The full backtracking search agrees with the spec's three-pass committed
scanner. -/
theorem rsearch1_eq_orderedScan : ∀ s, rsearch1 s = orderedScan s := by
  intro s
  induction s with
  | nil =>
    rw [show rsearch1 [] = none from rfl,
      orderedScan_eq_none_of (show firstMatch matchFS [] = none from matchFS_nil)]
  | cons c t ih =>
    cases hfs : matchFS (c :: t) with
    | none =>
      rw [rsearch1_cons_none hfs, ih]
      have : firstMatch matchFS (c :: t) = firstMatch matchFS t := by
        rw [firstMatch_cons, hfs]
      unfold orderedScan
      rw [this]
    | some gr =>
      obtain ⟨g1, r⟩ := gr
      have hfm : firstMatch matchFS (c :: t) = some (g1, r) := firstMatch_of_self hfs
      cases hst : stage23 r with
      | some g23 =>
        obtain ⟨g2, g3⟩ := g23
        have hr2 : rsearch2 r = some (g2, g3) := by rw [rsearch2_eq_stage23, hst]
        rw [rsearch1_cons_some hfs, hr2, orderedScan_eq_of_some hfm, hst]
      | none =>
        have hr2 : rsearch2 r = none := by rw [rsearch2_eq_stage23, hst]
        have hR : orderedScan (c :: t) = none := by
          rw [orderedScan_eq_of_some hfm, hst]
        have hL : orderedScan t = none := by
          cases h4 : firstMatch matchFS t with
          | none => exact orderedScan_eq_none_of h4
          | some gr' =>
            obtain ⟨g1', r'⟩ := gr'
            obtain ⟨u, hu, hfu⟩ := firstMatch_exists h4
            have hrsub : r' <:+ r :=
              matchFS_no_overlap hfs (hu.trans (List.suffix_cons c t))
                (ne_cons_self_of_suffix hu) hfu
            rw [orderedScan_eq_of_some h4, stage23_none_suffix hrsub hst]
        rw [rsearch1_cons_some hfs, hr2, ih, hL, hR]

theorem group_has_dot {d1 d2 : List Char} : ('.' : Char) ∈ d1 ++ '.' :: d2 :=
  List.mem_append.mpr (Or.inr (List.mem_cons_self _ _))

/-- A successful ordered scan exhibits a successful anchored match for each
of the three segments. -/
theorem orderedScan_some_parts {s g1 g2 g3}
    (h : orderedScan s = some (g1, g2, g3)) :
    (∃ u r, matchFS u = some (g1, r)) ∧ (∃ u r, matchIT u = some (g2, r)) ∧
      (∃ u r, matchDBuV u = some (g3, r)) := by
  cases hfs : firstMatch matchFS s with
  | none => rw [orderedScan_eq_none_of hfs] at h; exact absurd h (by simp)
  | some gr =>
    obtain ⟨g1', r⟩ := gr
    rw [orderedScan_eq_of_some hfs] at h
    cases hst : stage23 r with
    | none => rw [hst] at h; exact absurd h (by simp)
    | some g23 =>
      obtain ⟨g2', g3'⟩ := g23
      rw [hst] at h
      simp only [Option.some.injEq, Prod.mk.injEq] at h
      obtain ⟨h1, h2, h3⟩ := h
      cases hit : firstMatch matchIT r with
      | none => rw [stage23_eq_none_of hit] at hst; exact absurd hst (by simp)
      | some gr2 =>
        obtain ⟨g2'', ρ⟩ := gr2
        rw [stage23_eq_of_some hit] at hst
        cases hdb : firstMatch matchDBuV ρ with
        | none => rw [hdb] at hst; exact absurd hst (by simp)
        | some g3r =>
          obtain ⟨g3'', rr⟩ := g3r
          rw [hdb] at hst
          simp only [Option.some.injEq, Prod.mk.injEq] at hst
          obtain ⟨h4, h5⟩ := hst
          obtain ⟨u1, -, hu1⟩ := firstMatch_exists hfs
          obtain ⟨u2, -, hu2⟩ := firstMatch_exists hit
          obtain ⟨u3, -, hu3⟩ := firstMatch_exists hdb
          subst h1; subst h2; subst h3; subst h4; subst h5
          exact ⟨⟨u1, r, hu1⟩, ⟨u2, ρ, hu2⟩, ⟨u3, rr, hu3⟩⟩

/-- C2 (amended): the regex search is, on every report text, exactly the
spec's ordered three-pass scanner — leftmost `Free space path loss:` segment,
then first ITWOM segment after it, then first `dBuV/meter` segment after
that — and whenever the search succeeds and each captured numeric string is
a valid decimal, the parser returns exactly those three decimals in the
fixed order. -/
theorem c2_search_equals_ordered_scan :
    (∀ s, rsearch1 s = orderedScan s)
    ∧ (∀ s g1 g2 g3 a b c, rsearch1 s = some (g1, g2, g3) →
        decParse g1 = some a → decParse g2 = some b → decParse g3 = some c →
        splat_report_parse s = .ok (a, b, c)) := by
  refine ⟨rsearch1_eq_orderedScan, ?_⟩
  intro s g1 g2 g3 a b c h ha hb hc
  unfold splat_report_parse
  rw [h]
  show (match decParse g1, decParse g2, decParse g3 with
        | some a, some b, some c => Except.ok (a, b, c)
        | _, _, _ => Except.error SplatError.invalidOperation) = Except.ok (a, b, c)
  rw [ha, hb, hc]

theorem c2_search_equals_ordered_scan_witness :
    rsearch1 goodReport = some ("104.55".data, "141.82".data, "42.53".data) ∧
    orderedScan goodReport = some ("104.55".data, "141.82".data, "42.53".data) ∧
    splat_report_parse goodReport = .ok (.num ⟨false, 10455, -2⟩,
      .num ⟨false, 14182, -2⟩, .num ⟨false, 4253, -2⟩) :=
  ⟨by decide, by decide,
   c2_search_equals_ordered_scan.2 goodReport "104.55".data "141.82".data
     "42.53".data (.num ⟨false, 10455, -2⟩) (.num ⟨false, 14182, -2⟩)
     (.num ⟨false, 4253, -2⟩) (by decide) (by decide) (by decide) (by decide)⟩

/-- C2 (counterexample): on a report whose free-space quantity is the bare
dot `"."` — which the pattern `\d*\.\d*` accepts with both digit runs
empty — all three patterns are located in order, yet the parser does not
return three decimals: `Decimal(".")` raises `InvalidOperation`. -/
theorem c2_dot_group_counterexample :
    rsearch1 dotReport = some (".".data, "1.0".data, "2.0".data)
    ∧ decParse ".".data = none
    ∧ splat_report_parse dotReport = .error .invalidOperation :=
  ⟨by decide, by decide, by decide⟩

/-- C10: each of the three numeric patterns only matches text containing a
literal decimal point (the captured group always contains `'.'`, its digit
runs possibly empty), so a report printing a quantity as a plain integer
fails the search and raises the report-parse error. -/
theorem c10_decimal_needs_dot :
    (∀ s g r, decPatMatch s = some (g, r) → '.' ∈ g)
    ∧ (∀ s g1 g2 g3, rsearch1 s = some (g1, g2, g3) →
        '.' ∈ g1 ∧ '.' ∈ g2 ∧ '.' ∈ g3)
    ∧ rsearch1 intReport = none
    ∧ splat_report_parse intReport = .error (.reportError intReport) := by
  refine ⟨?_, ?_, by decide, by decide⟩
  · intro s g r h
    obtain ⟨d1, d2, -, -, -, hg⟩ := decPatMatch_some h
    rw [hg]
    exact group_has_dot
  · intro s g1 g2 g3 h
    rw [rsearch1_eq_orderedScan] at h
    obtain ⟨⟨u1, r1, h1⟩, ⟨u2, r2, h2⟩, ⟨u3, r3, h3⟩⟩ := orderedScan_some_parts h
    obtain ⟨d1, d2, -, -, -, hg1⟩ := matchFS_some h1
    obtain ⟨w, e1, e2, -, -, -, hg2⟩ := matchIT_some h2
    obtain ⟨f1, f2, -, -, -, hg3⟩ := matchDBuV_some h3
    rw [hg1, hg2, hg3]
    exact ⟨group_has_dot, group_has_dot, group_has_dot⟩

theorem c10_decimal_needs_dot_witness :
    decPatMatch "1.5x".data = some ("1.5".data, "x".data) ∧
    ('.' : Char) ∈ "1.5".data ∧
    rsearch1 goodReport = some ("104.55".data, "141.82".data, "42.53".data) ∧
    (('.' : Char) ∈ "104.55".data ∧ ('.' : Char) ∈ "141.82".data ∧
      ('.' : Char) ∈ "42.53".data) :=
  ⟨by decide,
   c10_decimal_needs_dot.1 "1.5x".data "1.5".data "x".data (by decide),
   by decide,
   c10_decimal_needs_dot.2.1 goodReport "104.55".data "141.82".data "42.53".data
     (by decide)⟩

/-! ## The in-range longitude conversion -/

theorem decFix_id {d : Dec} (h : digitsLen d.coeff ≤ prec) : decFix d = d := by
  unfold decFix
  rw [if_pos h]

theorem digitsLen_mono {m n : ℕ} (h : m ≤ n) : digitsLen m ≤ digitsLen n := by
  by_cases hm : m = 0
  · subst hm
    simpa [digitsLen] using digitsLen_pos n
  · exact digitsLen_le_of_lt_pow hm (lt_of_le_of_lt h (digitsLen_lt n))

theorem dval_false (c : ℕ) (ex : ℤ) : dval ⟨false, c, ex⟩ = (c : ℚ) * 10 ^ ex := by
  simp [dval]

theorem zpow_neg_natCast (E : ℕ) : (10 : ℚ) ^ (-(E : ℤ)) = ((10 : ℚ) ^ E)⁻¹ := by
  rw [zpow_neg, zpow_natCast]

/-- C1 (amended): for every finite `longitude_WtoE` at most 360 — negative
values included — whose subtraction `360 - longitude_WtoE` is exact at the
default 28-digit context precision, `to_qthfields().longitude_EtoW` equals
`(360 - longitude_WtoE) mod 360` and lies in `[0, 360)` — for both
`Transmitter` and `Receiver`.  (These are the two failure modes of the
counterexample: above 360 the dividend `360 - longitude_WtoE` turns negative
and `Decimal.__mod__` keeps its sign, and a rounded subtraction shifts the
value.) -/
theorem c1_longitude_in_range (lon : Dec)
    (h360 : dval lon ≤ 360)
    (hexact : digitsLen (decAddRaw d360 (decNeg lon)).coeff ≤ prec) :
    ∃ res : Dec, lonEtoW (.num lon) = some (.num res) ∧
      (∀ t : Transmitter, t.longitude_WtoE = .num lon →
        ∃ q, t.to_qthfields = some q ∧ q.longitude_EtoW = .num res) ∧
      (∀ r : Receiver, r.longitude_WtoE = .num lon →
        ∃ q, r.to_qthfields = some q ∧ q.longitude_EtoW = .num res) ∧
      dval res = (360 - dval lon) - 360 * ⌊(360 - dval lon) / 360⌋ ∧
      0 ≤ dval res ∧ dval res < 360 := by
  have he0 : min (0 : ℤ) lon.exp ≤ 0 := min_le_left _ _
  set e : ℤ := min (0 : ℤ) lon.exp with he
  set E : ℕ := (-e).toNat with hE
  have heE : e = -(E : ℤ) := by rw [hE]; omega
  set F : ℕ := (lon.exp - e).toNat with hF
  have heF : lon.exp - e = (F : ℤ) := by
    rw [hF]
    have : e ≤ lon.exp := min_le_right _ _
    omega
  set A : ℕ := 360 * 10 ^ E with hA
  set L : ℕ := lon.coeff * 10 ^ F with hL
  have hApos : 0 < A := by rw [hA]; positivity
  have hpow : (0 : ℚ) < 10 ^ e := by rw [heE, zpow_neg_natCast]; positivity
  have hAq : (360 : ℚ) = (A : ℚ) * 10 ^ e := by
    rw [hA, heE, zpow_neg_natCast]
    push_cast
    rw [mul_assoc, mul_inv_cancel₀ (by positivity), mul_one]
  have hLq : (L : ℚ) * 10 ^ e = (lon.coeff : ℚ) * 10 ^ lon.exp := by
    rw [hL]
    push_cast
    rw [mul_assoc, ← zpow_natCast (10 : ℚ) F, ← zpow_add₀ (by norm_num : (10:ℚ) ≠ 0), ← heF]
    ring_nf
  set SL : ℤ := (if lon.sign then -1 else 1) * (L : ℤ) with hSL
  have hvlon : dval lon = (SL : ℚ) * 10 ^ e := by
    rw [hSL]
    unfold dval
    cases hs : lon.sign with
    | false =>
      simp only [if_neg (by decide : ¬ (false = true))]
      push_cast
      linear_combination -hLq
    | true =>
      simp only [if_pos rfl]
      push_cast
      linear_combination hLq
  have hnint : decAddRawInt d360 (decNeg lon) = (A : ℤ) - SL := by
    rw [hSL]
    unfold decAddRawInt decNeg d360
    simp only
    rw [show min (0 : ℤ) lon.exp = e from he.symm]
    rw [show ((0 : ℤ) - e).toNat = E from by omega,
      show (lon.exp - e).toNat = F from hF.symm]
    cases hs : lon.sign with
    | false =>
      simp only [Bool.not_false, if_pos rfl, if_neg (by decide : ¬ (false = true))]
      rw [hA, hL]
      push_cast
      ring
    | true =>
      simp only [Bool.not_true, if_pos rfl, if_neg (by decide : ¬ (false = true))]
      rw [hA, hL]
      push_cast
      ring
  have hZnn : (0 : ℤ) ≤ (A : ℤ) - SL := by
    have h1 : (0 : ℚ) ≤ ((A : ℚ) - (SL : ℚ)) * 10 ^ e := by
      have : ((A : ℚ) - (SL : ℚ)) * 10 ^ e = 360 - dval lon := by
        rw [hvlon, hAq]; ring
      rw [this]
      linarith
    have h2 : (0 : ℚ) * 10 ^ e ≤ ((A : ℚ) - (SL : ℚ)) * 10 ^ e := by
      rw [zero_mul]; exact h1
    have h3 := le_of_mul_le_mul_right h2 hpow
    exact_mod_cast h3
  set N : ℕ := ((A : ℤ) - SL).toNat with hNdef
  have hNZ : (N : ℤ) = (A : ℤ) - SL := by rw [hNdef]; omega
  have hraw : decAddRaw d360 (decNeg lon) = ⟨false, N, e⟩ := by
    unfold decAddRaw
    rw [hnint]
    have hm : min d360.exp (decNeg lon).exp = e := by
      show min (0 : ℤ) lon.exp = e
      exact he.symm
    rw [hm]
    simp only [Dec.mk.injEq]
    refine ⟨?_, ?_, trivial⟩
    · simp only [decide_eq_false_iff_not, not_lt]
      omega
    · omega
  have hsub : decAdd d360 (decNeg lon) = ⟨false, N, e⟩ := by
    unfold decAdd
    rw [hraw] at hexact ⊢
    exact decFix_id hexact
  have hN28 : digitsLen N ≤ prec := by
    rw [hraw] at hexact
    exact hexact
  have hNlt : N < 10 ^ prec :=
    lt_of_lt_of_le (digitsLen_lt N) (Nat.pow_le_pow_right (by norm_num) hN28)
  have hrem : decRem ⟨false, N, e⟩ d360 = some ⟨false, N % A, e⟩ := by
    unfold decRem
    rw [if_neg (show ¬ (d360.coeff = 0) from by decide)]
    simp only
    have hmin : min (⟨false, N, e⟩ : Dec).exp d360.exp = e := by
      show min e 0 = e
      exact min_eq_left he0
    rw [hmin]
    have h1 : ((⟨false, N, e⟩ : Dec).exp - e).toNat = 0 := by
      show (e - e).toNat = 0
      omega
    have h2 : (d360.exp - e).toNat = E := by
      show ((0 : ℤ) - e).toNat = E
      omega
    rw [h1, h2]
    have hia : N * 10 ^ 0 = N := by ring
    have hib : d360.coeff * 10 ^ E = A := by rw [hA]; rfl
    show (if 10 ^ prec ≤ N * 10 ^ 0 / (d360.coeff * 10 ^ E) then none
      else some (decFix ⟨false, (N * 10 ^ 0) % (d360.coeff * 10 ^ E), e⟩)) =
      some ⟨false, N % A, e⟩
    rw [hia, hib]
    rw [if_neg (by
      intro hc
      have hd := Nat.div_le_self N A
      omega)]
    congr 1
    apply decFix_id
    exact le_trans (digitsLen_mono (Nat.mod_le _ _)) hN28
  have hlon : lonEtoW (.num lon) = some (.num ⟨false, N % A, e⟩) := by
    show (decRem (decAdd d360 (decNeg lon)) d360).map PyDec.num =
      some (.num ⟨false, N % A, e⟩)
    rw [hsub, hrem]
    rfl
  have hNq : (N : ℚ) = (A : ℚ) - (SL : ℚ) := by exact_mod_cast hNZ
  have hxq : 360 - dval lon = (N : ℚ) * 10 ^ e := by
    rw [hvlon, hAq, hNq]
    ring
  have hAq0 : (A : ℚ) ≠ 0 := by positivity
  have hp0 : (10 : ℚ) ^ e ≠ 0 := ne_of_gt hpow
  have hAQpos : (0 : ℚ) < (A : ℚ) := by exact_mod_cast hApos
  have hq : (360 - dval lon) / 360 = (N : ℚ) / (A : ℚ) := by
    rw [hxq, hAq]
    field_simp
    ring
  have hfl : ⌊(360 - dval lon) / 360⌋ = ((N / A : ℕ) : ℤ) := by
    rw [hq, Int.floor_eq_iff]
    constructor
    · rw [Int.cast_natCast, le_div_iff hAQpos]
      exact_mod_cast Nat.div_mul_le_self N A
    · rw [Int.cast_natCast, div_lt_iff hAQpos]
      have h5 : N < (N / A + 1) * A := by
        have h6 := Nat.div_add_mod N A
        have h7 := Nat.mod_lt N hApos
        have h8 : (N / A + 1) * A = A * (N / A) + A := by ring
        omega
      exact_mod_cast h5
  have hmodq : ((N % A : ℕ) : ℚ) = (N : ℚ) - (A : ℚ) * ((N / A : ℕ) : ℚ) := by
    have h6 := Nat.div_add_mod N A
    have h7 : A * (N / A) ≤ N := by omega
    have h8 : N % A = N - A * (N / A) := by omega
    rw [h8, Nat.cast_sub h7]
    push_cast
    ring
  refine ⟨⟨false, N % A, e⟩, hlon, ?_, ?_, ?_, ?_, ?_⟩
  · intro t ht
    refine ⟨⟨t.name, t.latitude, .num ⟨false, N % A, e⟩, t.height_m⟩, ?_, rfl⟩
    unfold Transmitter.to_qthfields
    rw [ht, hlon]
  · intro r hr
    refine ⟨⟨r.name, r.latitude, .num ⟨false, N % A, e⟩, r.height_m⟩, ?_, rfl⟩
    unfold Receiver.to_qthfields
    rw [hr, hlon]
  · rw [dval_false, hfl, hmodq, hxq, hAq, Int.cast_natCast]
    ring
  · rw [dval_false]
    positivity
  · have h9 : ((N % A : ℕ) : ℚ) < (A : ℚ) := by exact_mod_cast Nat.mod_lt N hApos
    rw [dval_false]
    calc ((N % A : ℕ) : ℚ) * 10 ^ e < (A : ℚ) * 10 ^ e :=
          mul_lt_mul_of_pos_right h9 hpow
    _ = 360 := hAq.symm

theorem c1_longitude_in_range_witness :
    (dval ⟨false, 490917, -5⟩ ≤ 360 ∧
      digitsLen (decAddRaw d360 (decNeg ⟨false, 490917, -5⟩)).coeff ≤ prec) ∧
    (dval ⟨true, 10, 0⟩ ≤ 360 ∧
      digitsLen (decAddRaw d360 (decNeg ⟨true, 10, 0⟩)).coeff ≤ prec) ∧
    (∃ res : Dec, lonEtoW (.num ⟨false, 490917, -5⟩) = some (.num res) ∧
      (∀ t : Transmitter, t.longitude_WtoE = .num ⟨false, 490917, -5⟩ →
        ∃ q, t.to_qthfields = some q ∧ q.longitude_EtoW = .num res) ∧
      (∀ r : Receiver, r.longitude_WtoE = .num ⟨false, 490917, -5⟩ →
        ∃ q, r.to_qthfields = some q ∧ q.longitude_EtoW = .num res) ∧
      dval res = (360 - dval ⟨false, 490917, -5⟩) -
        360 * ⌊(360 - dval ⟨false, 490917, -5⟩) / 360⌋ ∧
      0 ≤ dval res ∧ dval res < 360) ∧
    (∃ res : Dec, lonEtoW (.num ⟨true, 10, 0⟩) = some (.num res) ∧
      (∀ t : Transmitter, t.longitude_WtoE = .num ⟨true, 10, 0⟩ →
        ∃ q, t.to_qthfields = some q ∧ q.longitude_EtoW = .num res) ∧
      (∀ r : Receiver, r.longitude_WtoE = .num ⟨true, 10, 0⟩ →
        ∃ q, r.to_qthfields = some q ∧ q.longitude_EtoW = .num res) ∧
      dval res = (360 - dval ⟨true, 10, 0⟩) -
        360 * ⌊(360 - dval ⟨true, 10, 0⟩) / 360⌋ ∧
      0 ≤ dval res ∧ dval res < 360) :=
  ⟨⟨by norm_num [dval], by decide⟩,
   ⟨by norm_num [dval], by decide⟩,
   c1_longitude_in_range ⟨false, 490917, -5⟩ (by norm_num [dval]) (by decide),
   c1_longitude_in_range ⟨true, 10, 0⟩ (by norm_num [dval]) (by decide)⟩

end PySplat
